import Mathlib

/-
Verification of the response-normalization and orchestration pipeline of the
ai-storybook-studio serverless functions.

The JavaScript sources are shallowly embedded: strings are lists of
characters (`Str`), the JSON values produced by `JSON.parse` are an inductive
`Json`, and the fallible paths (thrown exceptions) are `Except`.  External
generative-AI collaborators are passed in as explicit arguments (their replies
or failures), so every embedded function is a pure, executable Lean function.

Modelling notes, applying throughout:
* `String.prototype.trim` is modelled over the JSON/ASCII whitespace
  characters (space, tab, newline, carriage return, vertical tab, form feed);
  exotic Unicode whitespace is outside the embedding's character repertoire.
* `JSON.parse` is implemented as a fuel-based recursive-descent parser of the
  JSON grammar.  Numbers keep their source literal (the claims only ever
  compare parses of identical texts, never numeric values of distinct texts);
  strings are decoded (escape sequences resolved) as in JavaScript.
* `JSON.stringify` is not applied: HTTP response bodies are kept as the
  `Json` value that the source serializes.
-/

abbrev Str := List Char

/-- Shorthand turning a Lean string literal into the `Str` character list. -/
def S (s : String) : Str := s.data

/-- Whitespace recognised by `String.prototype.trim` (ASCII part). -/
def isJsWs (c : Char) : Bool :=
  c = ' ' || c = '\t' || c = '\n' || c = '\r' || c = '\x0b' || c = '\x0c'

/-- Whitespace recognised between JSON tokens by `JSON.parse`. -/
def isJsonWs (c : Char) : Bool :=
  c = ' ' || c = '\t' || c = '\n' || c = '\r'

/-- Drop the longest suffix of `l` whose characters satisfy `p`. -/
def dropTrail (p : Char → Bool) (l : Str) : Str :=
  ((l.reverse).dropWhile p).reverse

/-- Model of `text.trim()`: removes leading and trailing whitespace. -/
def jsTrim (l : Str) : Str :=
  (dropTrail isJsWs l).dropWhile isJsWs

/-- The values produced by `JSON.parse`.  `num` keeps the numeric literal as
written; `str` holds the decoded character content; `obj` keeps the members in
source order (duplicate keys are resolved at lookup time, last one winning,
as JavaScript object construction does). -/
inductive Json where
  | null : Json
  | bool (b : Bool) : Json
  | num (lit : Str) : Json
  | str (s : Str) : Json
  | arr (elems : List Json) : Json
  | obj (fields : List (Str × Json)) : Json

/-- Value of a hexadecimal digit, as in a JSON `\u` escape. -/
def hexVal (c : Char) : Option Nat :=
  if '0' ≤ c ∧ c ≤ '9' then some (c.toNat - 48)
  else if 'a' ≤ c ∧ c ≤ 'f' then some (c.toNat - 87)
  else if 'A' ≤ c ∧ c ≤ 'F' then some (c.toNat - 55)
  else none

/-- The single-character JSON string escapes (everything but `\u`). -/
def escChar (c : Char) : Option Char :=
  if c = '"' then some '"'
  else if c = '\\' then some '\\'
  else if c = '/' then some '/'
  else if c = 'b' then some '\x08'
  else if c = 'f' then some '\x0c'
  else if c = 'n' then some '\n'
  else if c = 'r' then some '\r'
  else if c = 't' then some '\t'
  else none

/-- Scan a JSON string body (the opening quote already consumed): returns the
decoded content and the remainder after the closing quote.  Unescaped control
characters and invalid escapes are rejected, as `JSON.parse` does. -/
def scanStr : Str → Option (Str × Str)
  | [] => none
  | '"' :: r => some ([], r)
  | '\\' :: 'u' :: h1 :: h2 :: h3 :: h4 :: r =>
    match hexVal h1, hexVal h2, hexVal h3, hexVal h4, scanStr r with
    | some a, some b, some c, some d, some (content, rest) =>
      some (Char.ofNat (4096 * a + 256 * b + 16 * c + d) :: content, rest)
    | _, _, _, _, _ => none
  | '\\' :: e :: r =>
    match escChar e, scanStr r with
    | some ch, some (content, rest) => some (ch :: content, rest)
    | _, _ => none
  | c :: r =>
    if c.toNat < 32 then none
    else
      match scanStr r with
      | some (content, rest) => some (c :: content, rest)
      | none => none

/-- Longest leading run of decimal digits, and the remainder. -/
def scanDigits (s : Str) : Str × Str :=
  (s.takeWhile (fun c => c.isDigit), s.dropWhile (fun c => c.isDigit))

/-- Integer part of a JSON number: `0`, or a nonzero digit followed by
digits. -/
def scanIntPart : Str → Option (Str × Str)
  | [] => none
  | '0' :: r => some (['0'], r)
  | c :: r =>
    if c.isDigit then
      let (ds, rest) := scanDigits r
      some (c :: ds, rest)
    else none

/-- Optional fractional part of a JSON number. -/
def scanFrac (s : Str) : Option (Str × Str) :=
  match s with
  | '.' :: r =>
    let (ds, rest) := scanDigits r
    if ds = [] then none else some ('.' :: ds, rest)
  | _ => some ([], s)

/-- Optional sign at the head of an exponent. -/
def scanSign (s : Str) : Str × Str :=
  match s with
  | '+' :: t => (['+'], t)
  | '-' :: t => (['-'], t)
  | _ => ([], s)

/-- Optional exponent part of a JSON number. -/
def scanExp (s : Str) : Option (Str × Str) :=
  match s with
  | e :: r =>
    if e = 'e' ∨ e = 'E' then
      let (sg, r2) := scanSign r
      let (ds, rest) := scanDigits r2
      if ds = [] then none else some (e :: (sg ++ ds), rest)
    else some ([], s)
  | [] => some ([], s)

/-- Optional leading minus of a JSON number. -/
def scanMinus (s : Str) : Str × Str :=
  match s with
  | '-' :: r => (['-'], r)
  | _ => ([], s)

/-- Scan a JSON number at the head of `s`; returns the literal consumed and
the remainder. -/
def scanNumber (s : Str) : Option (Str × Str) :=
  let (sg, s1) := scanMinus s
  match scanIntPart s1 with
  | none => none
  | some (ip, s2) =>
    match scanFrac s2 with
    | none => none
    | some (fp, s3) =>
      match scanExp s3 with
      | none => none
      | some (ep, s4) => some (sg ++ ip ++ fp ++ ep, s4)

/-- Drop JSON whitespace at the front. -/
def skipWs (s : Str) : Str := s.dropWhile isJsonWs

mutual

/-- Fuelled JSON value parser: parses one JSON value at the head of `s`
(after optional whitespace), returning it and the unconsumed remainder. -/
def parseValueF : Nat → Str → Option (Json × Str)
  | 0, _ => none
  | fuel + 1, s =>
    match skipWs s with
    | [] => none
    | '{' :: r =>
      (match skipWs r with
       | '}' :: rest => some (Json.obj [], rest)
       | _ =>
         match parseMembersF fuel r with
         | some (fs, rest) => some (Json.obj fs, rest)
         | none => none)
    | '[' :: r =>
      (match skipWs r with
       | ']' :: rest => some (Json.arr [], rest)
       | _ =>
         match parseElemsF fuel r with
         | some (es, rest) => some (Json.arr es, rest)
         | none => none)
    | '"' :: r =>
      (match scanStr r with
       | some (content, rest) => some (Json.str content, rest)
       | none => none)
    | c :: r =>
      if (S "true").isPrefixOf (c :: r) then some (Json.bool true, (c :: r).drop 4)
      else if (S "false").isPrefixOf (c :: r) then some (Json.bool false, (c :: r).drop 5)
      else if (S "null").isPrefixOf (c :: r) then some (Json.null, (c :: r).drop 4)
      else
        match scanNumber (c :: r) with
        | some (lit, rest) => some (Json.num lit, rest)
        | none => none

/-- Fuelled parser for a nonempty member list of a JSON object (the `{`
already consumed), through the closing `}`. -/
def parseMembersF : Nat → Str → Option (List (Str × Json) × Str)
  | 0, _ => none
  | fuel + 1, s =>
    match skipWs s with
    | '"' :: r =>
      (match scanStr r with
       | none => none
       | some (k, r1) =>
         match skipWs r1 with
         | ':' :: r2 =>
           (match parseValueF fuel r2 with
            | none => none
            | some (v, r3) =>
              match skipWs r3 with
              | ',' :: r4 =>
                (match parseMembersF fuel r4 with
                 | some (fs, rest) => some ((k, v) :: fs, rest)
                 | none => none)
              | '}' :: r4 => some ([(k, v)], r4)
              | _ => none)
         | _ => none)
    | _ => none

/-- Fuelled parser for a nonempty element list of a JSON array (the `[`
already consumed), through the closing `]`. -/
def parseElemsF : Nat → Str → Option (List Json × Str)
  | 0, _ => none
  | fuel + 1, s =>
    match parseValueF fuel s with
    | none => none
    | some (v, r) =>
      match skipWs r with
      | ',' :: r2 =>
        (match parseElemsF fuel r2 with
         | some (es, rest) => some (v :: es, rest)
         | none => none)
      | ']' :: r2 => some ([v], r2)
      | _ => none

end

/-- Model of `JSON.parse`: parse one JSON value, allow trailing whitespace,
reject anything else left over.  The fuel `2 * s.length + 2` dominates the
recursion depth (each two fuel steps consume at least one character). -/
def parseJson (s : Str) : Option Json :=
  match parseValueF (2 * s.length + 2) s with
  | some (v, rest) => if skipWs rest = [] then some v else none
  | none => none

/-
Response Normalizer of netlify/functions/generate-ai.js (`askForStory`,
lines 47-71): fence stripping, strict parse, first-brace-to-last-brace
fallback, and the diagnostic errors.
-/

/-- Errors thrown while coercing the model reply into JSON, mirroring the
three `throw new Error(...)` sites of `askForStory`. -/
inductive AErr where
  | upstream (m : Str) : AErr
  | badExtract : AErr
  | noObject (preview : Str) : AErr

/-- The code-fence stripping of `askForStory` (lines 49-53): the regex
`^`-fence with an optional `json` tag and an optional newline is removed when
the text starts with a fence, and a trailing fence is removed (followed by a
re-trim) when the text ends with one. -/
def stripFences (t : Str) : Str :=
  let t1 :=
    if (S "```").isPrefixOf t then
      let r := t.drop 3
      let r := if (S "json").isPrefixOf r then r.drop 4 else r
      if r.head? = some '\n' then r.drop 1 else r
    else t
  if (S "```").isSuffixOf t1 then jsTrim ((t1.reverse.drop 3).reverse) else t1

/-- The substring matched by the greedy regex `/\x7b[\s\S]*\x7d/`: from the
first `{` through the last `}`, provided the `}` comes after the `{`. -/
def extractBraces (t : Str) : Option Str :=
  let i := (t.takeWhile (fun c => ¬(c = '{'))).length
  let k := (t.reverse.takeWhile (fun c => ¬(c = '}'))).length
  if i + k + 2 ≤ t.length then some ((t.drop i).take (t.length - k - i)) else none

/-- Strict parse, then parse of the extracted brace span, then failure with a
1000-character preview (lines 55-70 of `askForStory`). -/
def parseWithFallback (t : Str) : Except AErr Json :=
  match parseJson t with
  | some v => Except.ok v
  | none =>
    match extractBraces t with
    | some m =>
      match parseJson m with
      | some v => Except.ok v
      | none => Except.error AErr.badExtract
    | none => Except.error (AErr.noObject (t.take 1000))

/-- The full reply normalization of `askForStory`: trim, strip fences, parse
with the extraction fallback. -/
def normalizeReply (raw : Str) : Except AErr Json :=
  parseWithFallback (stripFences (jsTrim raw))

/-- Model of `askForStory`: the text-generation collaborator's behaviour is
the argument (a thrown failure or the raw textual reply); its reply is then
normalized.  The prompt and page count only shape the instruction text sent
to the collaborator, which the oracle argument abstracts. -/
def askForStory (collab : Except Str Str) : Except AErr Json :=
  match collab with
  | Except.error m => Except.error (AErr.upstream m)
  | Except.ok raw => normalizeReply raw

/-
JavaScript value coercions used by the handlers.
-/

/-- Whether a JSON numeric literal denotes the number zero (all mantissa
digits are `0`; an exponent never changes zeroness). -/
def isZeroLit (lit : Str) : Bool :=
  (lit.takeWhile (fun c => ¬(c = 'e' ∨ c = 'E'))).all
    (fun c => c = '0' || c = '.' || c = '-')

/-- JavaScript truthiness of a parsed JSON value. -/
def jsTruthy : Json → Bool
  | Json.null => false
  | Json.bool b => b
  | Json.num lit => ¬ isZeroLit lit
  | Json.str s => ¬ s.isEmpty
  | Json.arr _ => true
  | Json.obj _ => true

/-- Last binding of key `k` (JavaScript keeps the last duplicate member). -/
def lookupLast : List (Str × Json) → Str → Option Json
  | [], _ => none
  | (k', v) :: rest, k =>
    match lookupLast rest k with
    | some r => some r
    | none => if k' = k then some v else none

/-- Property access `j[k]` on a parsed JSON value that is known not to be
`null`: `undefined` (here `none`) when `j` is not an object or lacks the
key.  Access on `null` throws in JavaScript; every use site on a
possibly-`null` value (`promptOf`, `pagesArr`, `mkPage`, `handlerP0`) guards
the `null` case separately as a thrown `TypeError`. -/
def jget (j : Json) (k : Str) : Option Json :=
  match j with
  | Json.obj fs => lookupLast fs k
  | _ => none

/-- JavaScript `a || b` over a possibly-undefined left operand. -/
def jsOr (a : Option Json) (b : Json) : Json :=
  match a with
  | some v => if jsTruthy v then v else b
  | none => b

/-
The HTTP handler of netlify/functions/generate-ai.js (lines 74-127).
-/

/-- The incoming serverless event: its method and raw body text (`none` for
a missing body). -/
structure Event where
  httpMethod : Str
  body : Option Str

/-- A response body: the raw string of the 405 branch, or the `Json` value
that `JSON.stringify` serializes in every other branch. -/
inductive RBody where
  | text (s : Str) : RBody
  | json (j : Json) : RBody

/-- A handler response. -/
structure Response where
  statusCode : Nat
  body : RBody

/-- A `\x7b error: message \x7d` JSON payload. -/
def errObj (m : Str) : RBody :=
  RBody.json (Json.obj [(S "error", Json.str m)])

/-- The argument `JSON.parse` receives for the request body:
`event.body || "\x7b\x7d"` (a missing or empty body falls back to the empty
object text). -/
def bodyTextOf (e : Event) : Str :=
  match e.body with
  | none => ['{', '}']
  | some b => if b.isEmpty then ['{', '}'] else b

/-- Line 90: `body.prompt || (body.prompt === 0 ? "0" : null)` — the prompt
value, with a number-zero prompt coerced to the string `"0"` and any other
falsy or missing prompt collapsed to `null` (`none`).  On a `null` parsed
body the property access `body.prompt` itself throws a `TypeError`
(`Except.error`), landing in the catch block. -/
def promptOf : Json → Except Unit (Option Json)
  | Json.null => Except.error ()
  | bodyJ =>
    Except.ok
      (match jget bodyJ (S "prompt") with
       | none => none
       | some p =>
         if jsTruthy p then some p
         else if (match p with | Json.num lit => isZeroLit lit | _ => false)
         then some (Json.str (S "0"))
         else none)

/-- The validity test of line 93 collapsed to its passing case:
`Except.ok (some s)` exactly when the prompt survives
`!prompt || typeof prompt !== "string" || prompt.trim().length === 0`;
`Except.error` when reading the prompt already threw (`null` body). -/
def validPrompt (bodyJ : Json) : Except Unit (Option Str) :=
  match promptOf bodyJ with
  | Except.error e => Except.error e
  | Except.ok p? =>
    Except.ok
      (match p? with
       | some (Json.str s) => if jsTrim s = [] then none else some s
       | _ => none)

/-- Unreserved characters of `encodeURIComponent`. -/
def isUnreservedUri (c : Char) : Bool :=
  c.isAlpha || c.isDigit || c = '-' || c = '_' || c = '.' || c = '!' ||
  c = '~' || c = '*' || c = '\'' || c = '(' || c = ')'

/-- UTF-8 bytes of one character. -/
def utf8Bytes (c : Char) : List Nat :=
  let n := c.toNat
  if n < 128 then [n]
  else if n < 2048 then [192 + n / 64, 128 + n % 64]
  else if n < 65536 then [224 + n / 4096, 128 + (n / 64) % 64, 128 + n % 64]
  else [240 + n / 262144, 128 + (n / 4096) % 64, 128 + (n / 64) % 64, 128 + n % 64]

/-- Upper-case hexadecimal digit. -/
def hexDigitU (n : Nat) : Char :=
  if n < 10 then Char.ofNat (48 + n) else Char.ofNat (55 + n)

/-- Model of `encodeURIComponent`: unreserved characters pass through, every
other character is percent-encoded byte by byte. -/
def encodeURIComponent (s : Str) : Str :=
  s.flatMap fun c =>
    if isUnreservedUri c then [c]
    else (utf8Bytes c).flatMap fun b => ['%', hexDigitU (b / 16), hexDigitU (b % 16)]

/-- The placeholder illustration URL of line 105, built from the first 60
characters of its source text. -/
def placeholderUrl (src : Str) : Str :=
  S "https://placehold.co/600x400/EEF2FF/0B4C86?text=" ++
    encodeURIComponent (src.take 60)

/-- The text feeding the placeholder URL: `p.imagePrompt || p.text || ''`. -/
def urlSource (p : Json) : Json :=
  jsOr (jget p (S "imagePrompt")) (jsOr (jget p (S "text")) (Json.str []))

/-- The `imagePrompt` field of the outgoing page:
`p.imagePrompt || p.image_prompt || ''`. -/
def imagePromptChain (p : Json) : Json :=
  jsOr (jget p (S "imagePrompt")) (jsOr (jget p (S "image_prompt")) (Json.str []))

/-- The string value fed into `.slice(0, 60)` at line 105 (the slice itself
is part of `placeholderUrl`).  A string slices normally; a truthy non-string
value makes `.slice` throw a `TypeError` (JavaScript array slicing and
stringification, irrelevant to every claim, is conservatively folded into
the thrown case). -/
def sliceSource : Json → Except Unit Str
  | Json.str s => Except.ok s
  | _ => Except.error ()

/-- A member list with the binding only when the value is present
(`JSON.stringify` omits `undefined` members). -/
def optField (k : Str) (v? : Option Json) : List (Str × Json) :=
  match v? with
  | some v => [(k, v)]
  | none => []

/-- One page of the 200 payload (lines 101-108): `page_number` and `text`
are copied when present (`JSON.stringify` omits `undefined` members),
`imagePrompt` is the `||`-chain, `imageUrl` the placeholder, `audioUrl`
`null`.  Property access on a `null` array element throws. -/
def mkPage (p : Json) : Except Unit Json :=
  match p with
  | Json.null => Except.error ()
  | _ =>
    match sliceSource (urlSource p) with
    | Except.error _ => Except.error ()
    | Except.ok src =>
      Except.ok (Json.obj
        (optField (S "page_number") (jget p (S "page_number")) ++
         optField (S "text") (jget p (S "text")) ++
         [(S "imagePrompt", imagePromptChain p),
          (S "imageUrl", Json.str (placeholderUrl src)),
          (S "audioUrl", Json.null)]))

/-- Line 101: `(storyJson.pages || []).map(...)` — the page array, `[]` for a
falsy or missing `pages`, a thrown `TypeError` when `storyJson` is `null`
(property access on `null` throws) or when `pages` is truthy but not an
array (`.map` is not a function). -/
def pagesArr : Json → Except Unit (List Json)
  | Json.null => Except.error ()
  | storyJson =>
    match jget storyJson (S "pages") with
    | none => Except.ok []
    | some (Json.arr es) => Except.ok es
    | some v => if jsTruthy v then Except.error () else Except.ok []

/-- Line 111: `storyJson.title || "AI Storybook"`. -/
def titleOf (storyJson : Json) : Json :=
  jsOr (jget storyJson (S "title")) (Json.str (S "AI Storybook"))

/-- The 200-success payload `\x7b story: \x7b title, pages \x7d \x7d`. -/
def successBody (title : Json) (pages : List Json) : RBody :=
  RBody.json (Json.obj
    [(S "story", Json.obj [(S "title", title), (S "pages", Json.arr pages)])])

/-- The GET liveness-probe payload of lines 76-82. -/
def probeBody : RBody :=
  RBody.json (Json.obj
    [(S "ok", Json.bool true),
     (S "message", Json.str (S "generate-ai function is deployed. POST with \x7b prompt, pageCount \x7d to generate."))])

/-- The error message of a failed `askForStory`, as surfaced by the catch
block (line 120). -/
def errMessage : AErr → Str
  | AErr.upstream m => S "Model.generateContent failed: " ++ m
  | AErr.badExtract => S "AI returned invalid JSON (extracted substring failed to parse)."
  | AErr.noObject pv => S "Unable to parse story JSON from model output. Raw model output preview: " ++ pv

/-- Diagnostic stand-in for the engine-specific `SyntaxError` message of a
failed `JSON.parse` on the request body. -/
def jsonSyntaxErrMsg : Str := S "Unexpected token in JSON"

/-- Diagnostic stand-in for the `TypeError` message of the throwing branches
inside the 200 assembly (non-array `pages`, non-sliceable prompt source). -/
def assemblyErrMsg : Str := S "TypeError in response assembly"

/-- Diagnostic stand-in for the `TypeError` message of a property access on
a `null` value (line 90 on a `null` body; part_000 destructuring a `null`
body), answered by the catch block. -/
def nullAccessErrMsg : Str := S "TypeError on null property access"

/-- The `.map` of line 101 over the page array, with a throw from any
element (`mkPage`) aborting the whole map. -/
def mapPages : List Json → Except Unit (List Json)
  | [] => Except.ok []
  | p :: ps =>
    match mkPage p, mapPages ps with
    | Except.ok q, Except.ok qs => Except.ok (q :: qs)
    | Except.error e, _ => Except.error e
    | _, Except.error e => Except.error e

/-- The POST path after a successfully parsed body and valid prompt:
`askForStory`, then the page assembly, with every throw landing in the catch
block as a 500. -/
def handleStory (storyRes : Except AErr Json) : Response :=
  match storyRes with
  | Except.error err => Response.mk 500 (errObj (errMessage err))
  | Except.ok storyJson =>
    match pagesArr storyJson with
    | Except.error _ => Response.mk 500 (errObj assemblyErrMsg)
    | Except.ok es =>
      match mapPages es with
      | Except.error _ => Response.mk 500 (errObj assemblyErrMsg)
      | Except.ok ps => Response.mk 200 (successBody (titleOf storyJson) ps)

/-- Dispatch on the outcome of lines 90-98: a throw while reading the prompt
is caught as a 500, an invalid prompt is the 400 of line 94, and a valid
prompt continues into the story pipeline. -/
def promptGate (v : Except Unit (Option Str)) (next : Response) : Response :=
  match v with
  | Except.error _ => Response.mk 500 (errObj nullAccessErrMsg)
  | Except.ok none => Response.mk 400 (errObj (S "Missing 'prompt' in request body"))
  | Except.ok (some _) => next

/-- The exported handler of netlify/functions/generate-ai.js: GET probe,
405 for other non-POST methods, then the guarded story pipeline with its
catch-all 500. -/
def handler (e : Event) (collab : Except Str Str) : Response :=
  if e.httpMethod = S "GET" then Response.mk 200 probeBody
  else if ¬ (e.httpMethod = S "POST") then
    Response.mk 405 (RBody.text (S "Method Not Allowed"))
  else
    match parseJson (bodyTextOf e) with
    | none => Response.mk 500 (errObj jsonSyntaxErrMsg)
    | some bodyJ => promptGate (validPrompt bodyJ) (handleStory (askForStory collab))

/-- Requested page count: `parseInt(body.pageCount || 3, 10)`.  `none` is
`NaN`.  Only meaningful for a non-`null` body (on a `null` body line 90
throws before this line runs).  For a number the literal stands in for JavaScript's number-to-string
(exact for the plain integer literals a request would carry). -/
def parseIntStr (s : Str) : Option Int :=
  let t := s.dropWhile isJsWs
  let (sg, t1) : Int × Str :=
    match t with
    | '-' :: r => (-1, r)
    | '+' :: r => (1, r)
    | _ => (1, t)
  let ds := t1.takeWhile (fun c => c.isDigit)
  if ds = [] then none
  else some (sg * (ds.foldl (fun a c => 10 * a + (c.toNat - 48)) 0 : Nat))

/-- ParseInt applied to a JSON value, via its string coercion. -/
def parseIntJs : Json → Option Int
  | Json.num lit => parseIntStr lit
  | Json.str s => parseIntStr s
  | _ => none

/-- Line 91: `parseInt(body.pageCount || STORY_PAGE_COUNT_DEFAULT, 10)`. -/
def requestedPageCount (bodyJ : Json) : Option Int :=
  match jget bodyJ (S "pageCount") with
  | some v => if jsTruthy v then parseIntJs v else some 3
  | none => some 3

/-
The earlier handler iteration of src/unnamed/part_000: no method dispatch,
truthiness-only prompt check, raw collaborator text echoed back.
-/

/-- The part_000 handler: parse the body (destructuring a `null` body throws
into the catch as a 500), reject a falsy prompt with 400, otherwise forward
the collaborator's text (or its failure as a 500). -/
def handlerP0 (e : Event) (collab : Except Str Str) : Response :=
  match parseJson (bodyTextOf e) with
  | none => Response.mk 500 (errObj jsonSyntaxErrMsg)
  | some Json.null => Response.mk 500 (errObj nullAccessErrMsg)
  | some bodyJ =>
    if (match jget bodyJ (S "prompt") with
        | some p => jsTruthy p
        | none => false) then
      match collab with
      | Except.error m => Response.mk 500 (errObj m)
      | Except.ok text =>
        Response.mk 200 (RBody.json (Json.obj [(S "story", Json.str text)]))
    else Response.mk 400 (errObj (S "Prompt is required"))

/-
The normalizer of the second src/unnamed/part_002 iteration
(`generateStoryStructure`, lines 280-292): it strips a leading fence only
when the text starts with the tagged fence `` ```json ``, cuts at
`indexOf('\n') + 1`, cuts a trailing fence at `lastIndexOf('```')`, and has
no extraction fallback — a failed `JSON.parse` throws.
-/

/-- Index of the first newline, as `indexOf('\n')` (`none` for `-1`). -/
def idxOfNl (t : Str) : Option Nat := t.findIdx? (fun c => c = '\n')

/-- Index of the last occurrence of the substring `` ``` ``. -/
def lastTripleTick (t : Str) : Option Nat :=
  ((List.range (t.length + 1)).filter
    (fun i => (S "```").isPrefixOf (t.drop i))).getLast?

/-- The part_002 (second iteration) reply normalization, lines 280-292. -/
def normalizeP2 (raw : Str) : Except Str Json :=
  let t := jsTrim raw
  let t1 :=
    if (S "```json").isPrefixOf t then
      match idxOfNl t with
      | some i => jsTrim (t.drop (i + 1))
      | none => t
    else t
  let t2 :=
    if (S "```").isSuffixOf t1 then
      match lastTripleTick t1 with
      | some j => jsTrim (t1.take j)
      | none => t1
    else t1
  match parseJson t2 with
  | some v => Except.ok v
  | none => Except.error (S "SyntaxError")

/-
Per-page asset generation, first src/unnamed/part_002 iteration
(lines 60-79 and 119-170): a sequential loop; `generateIllustration`
catches every failure and returns `null`; `generateNarration` catches every
failure and returns a `TTS_FAILED` sentinel.
-/

/-- A page draft coming out of the story structure. -/
structure PageA where
  text : Str
  image_prompt : Str

/-- The narration result of the first iteration: the raw payload for
client-side conversion, or the sentinel of the failure paths. -/
inductive AudioDataA where
  | payload (data : Str) (mimeType : Str) : AudioDataA
  | failed : AudioDataA

/-- First-iteration `generateIllustration` (lines 119-144): the image
collaborator's outcome is a thrown failure or an optional base64 image
(`none` for an empty prediction list, reached by optional chaining).  Every
failure, and a falsy image, becomes `null`. -/
def generateIllustrationA (reply : Except Str (Option Str)) : Option Str :=
  match reply with
  | Except.ok (some b) =>
    if b.isEmpty then none else some (S "data:image/png;base64," ++ b)
  | _ => none

/-- First-iteration `generateNarration` (lines 146-170): an optional
`(data, mimeType)` inline part; any failure or missing part yields the
sentinel. -/
def generateNarrationA (reply : Except Str (Option (Str × Str))) : AudioDataA :=
  match reply with
  | Except.ok (some (d, m)) =>
    if ¬ d.isEmpty ∧ ¬ m.isEmpty then AudioDataA.payload d m else AudioDataA.failed
  | _ => AudioDataA.failed

/-- A page after the first-iteration asset loop. -/
structure PageOutA where
  text : Str
  image_prompt : Str
  imageUrl : Option Str
  audioData : AudioDataA

/-- The body of the first-iteration `generateFullStory` loop, with the
per-page collaborator outcomes supplied by position. -/
def genPagesA (il : Nat → Except Str (Option Str))
    (nr : Nat → Except Str (Option (Str × Str))) : Nat → List PageA → List PageOutA
  | _, [] => []
  | i, p :: ps =>
    PageOutA.mk p.text p.image_prompt
      (generateIllustrationA (il i)) (generateNarrationA (nr i)) ::
    genPagesA il nr (i + 1) ps

/-- First-iteration `generateFullStory` (lines 60-79), restricted to its
asset loop over the structured story's pages. -/
def generateFullStoryA (pages : List PageA) (il : Nat → Except Str (Option Str))
    (nr : Nat → Except Str (Option (Str × Str))) : List PageOutA :=
  genPagesA il nr 0 pages

/-
Per-page asset generation, second src/unnamed/part_002 iteration
(lines 184-376): base64 PCM → WAV conversion on the server, and a parallel
`Promise.all` pipeline whose sub-steps throw on failure.
-/

/-- Character of one 6-bit group in the standard base64 alphabet. -/
def b64Char (n : Nat) : Char :=
  if n < 26 then Char.ofNat (65 + n)
  else if n < 52 then Char.ofNat (97 + n - 26)
  else if n < 62 then Char.ofNat (48 + n - 52)
  else if n = 62 then '+' else '/'

/-- Standard base64 encoding of a byte list (with `=` padding), as
`Buffer.prototype.toString('base64')`. -/
def b64Encode : List Nat → Str
  | [] => []
  | [a] => [b64Char (a / 4), b64Char (a % 4 * 16), '=', '=']
  | [a, b] => [b64Char (a / 4), b64Char (a % 4 * 16 + b / 16), b64Char (b % 16 * 4), '=']
  | a :: b :: c :: r =>
    b64Char (a / 4) :: b64Char (a % 4 * 16 + b / 16) ::
    b64Char (b % 16 * 4 + c / 64) :: b64Char (c % 64) :: b64Encode r

/-- Value of a base64 alphabet character. -/
def b64Val (c : Char) : Option Nat :=
  if 'A' ≤ c ∧ c ≤ 'Z' then some (c.toNat - 65)
  else if 'a' ≤ c ∧ c ≤ 'z' then some (c.toNat - 97 + 26)
  else if '0' ≤ c ∧ c ≤ '9' then some (c.toNat - 48 + 52)
  else if c = '+' then some 62
  else if c = '/' then some 63
  else none

/-- Base64 decoding of well-formed four-character groups, as
`Buffer.from(text, 'base64')` on its own output (ill-formed tails, which
Node decodes leniently and no claim exercises, decode to nothing). -/
def b64Decode : Str → List Nat
  | c1 :: c2 :: '=' :: _ :: _ =>
    (match b64Val c1, b64Val c2 with
     | some a, some b => [a * 4 + b / 16]
     | _, _ => [])
  | c1 :: c2 :: c3 :: '=' :: _ =>
    (match b64Val c1, b64Val c2, b64Val c3 with
     | some a, some b, some c => [a * 4 + b / 16, b % 16 * 16 + c / 4]
     | _, _, _ => [])
  | c1 :: c2 :: c3 :: c4 :: r =>
    (match b64Val c1, b64Val c2, b64Val c3, b64Val c4 with
     | some a, some b, some c, some d =>
       (a * 4 + b / 16) :: (b % 16 * 16 + c / 4) :: (c % 4 * 64 + d) :: b64Decode r
     | _, _, _, _ => [])
  | _ => []

/-- Little-endian bytes of a 16-bit unsigned value (`DataView.setUint16`,
wrapping). -/
def u16le (n : Nat) : List Nat := [n % 256, n / 256 % 256]

/-- Little-endian bytes of a 32-bit unsigned value (`DataView.setUint32`,
wrapping). -/
def u32le (n : Nat) : List Nat :=
  [n % 256, n / 256 % 256, n / 65536 % 256, n / 16777216 % 256]

/-- Little-endian bytes of a signed 16-bit sample (`DataView.setInt16`). -/
def i16le (i : Int) : List Nat := u16le (i.emod 65536).toNat

/-- Code points of an ASCII tag, as `writeString` pokes them into the
header. -/
def asciiBytes (s : Str) : List Nat := s.map Char.toNat

/-- Model of `pcmToWav` (part_002 lines 189-228): the 44-byte canonical
RIFF/WAVE/fmt /data header followed by the samples, little-endian. -/
def pcmToWav (pcm16 : List Int) (sampleRate : Nat) (numberOfChannels : Nat := 1) :
    List Nat :=
  asciiBytes (S "RIFF") ++ u32le (36 + pcm16.length * 2) ++ asciiBytes (S "WAVE") ++
  asciiBytes (S "fmt ") ++ u32le 16 ++ u16le 1 ++ u16le numberOfChannels ++
  u32le sampleRate ++ u32le (sampleRate * numberOfChannels * 2) ++
  u16le (numberOfChannels * 2) ++ u16le 16 ++
  asciiBytes (S "data") ++ u32le (pcm16.length * 2) ++
  pcm16.flatMap i16le

/-- Reinterpret an even-length byte list as little-endian signed 16-bit
samples (`new Int16Array(buffer, 0, length / 2)`). -/
def bytesToI16 : List Nat → List Int
  | lo :: hi :: r =>
    (let u := lo + 256 * hi
     if u < 32768 then (u : Int) else (u : Int) - 65536) :: bytesToI16 r
  | _ => []

/-- The sample rate captured by `mimeType.match(/rate=(\d+)/)`: the digits
after the first `rate=` that is followed by at least one digit. -/
def findRate : Str → Option Nat
  | [] => none
  | c :: rest =>
    if (S "rate=").isPrefixOf (c :: rest) &&
       (match (c :: rest).drop 5 with
        | d :: _ => d.isDigit
        | [] => false) then
      some ((((c :: rest).drop 5).takeWhile (fun d => d.isDigit)).foldl
        (fun a d => 10 * a + (d.toNat - 48)) 0)
    else findRate rest

/-- The inline audio part of a text-to-speech reply. -/
structure InlineData where
  data : Str
  mimeType : Str

/-- Second-iteration `generateNarration` (lines 312-346): no catch — a
missing inline part throws, and an odd decoded byte count would make the
`Int16Array` construction throw a `RangeError`.  Otherwise the PCM bytes are
wrapped via `pcmToWav` and re-encoded with the `audio/wav` data prefix. -/
def generateNarrationB (part : Option InlineData) : Except Str Str :=
  match part with
  | none => Except.error (S "TTS response missing audio data.")
  | some d =>
    let sampleRate := (findRate d.mimeType).getD 16000
    let bytes := b64Decode d.data
    if bytes.length % 2 = 0 then
      Except.ok (S "data:audio/wav;base64," ++
        b64Encode (pcmToWav (bytesToI16 bytes) sampleRate 1))
    else Except.error (S "RangeError")

/-- Second-iteration `generateIllustration` (lines 298-307): no catch — a
collaborator failure propagates, and an empty prediction list throws
(`predictions[0].bytesBase64Encoded` on `undefined`). -/
def generateIllustrationB (reply : Except Str (Option Str)) : Except Str Str :=
  match reply with
  | Except.error m => Except.error m
  | Except.ok none => Except.error (S "Cannot read properties of undefined")
  | Except.ok (some b) => Except.ok (S "data:image/png;base64," ++ b)

/-- A page after the second-iteration parallel asset step. -/
structure PageOutB where
  text : Str
  image_prompt : Str
  imageUrl : Str
  audioUrl : Str

/-- The per-page tasks of the second-iteration `generateFullStory`
(lines 351-376): each page maps to illustration + narration; `Promise.all`
turns any rejection into a rejection of the whole story. -/
def genPagesB (il : Nat → Except Str (Option Str)) (nr : Nat → Option InlineData) :
    Nat → List PageA → Except Str (List PageOutB)
  | _, [] => Except.ok []
  | i, p :: ps =>
    match generateIllustrationB (il i) with
    | Except.error m => Except.error m
    | Except.ok u =>
      match generateNarrationB (nr i) with
      | Except.error m => Except.error m
      | Except.ok a =>
        match genPagesB il nr (i + 1) ps with
        | Except.error m => Except.error m
        | Except.ok rest => Except.ok (PageOutB.mk p.text p.image_prompt u a :: rest)

/-- Second-iteration `generateFullStory`, restricted to its parallel asset
step over the structured story's pages. -/
def generateFullStoryB (pages : List PageA) (il : Nat → Except Str (Option Str))
    (nr : Nat → Option InlineData) : Except Str (List PageOutB) :=
  genPagesB il nr 0 pages
theorem suffix_of_cons {a : Char} {l₁ l₂ : Str} (h : l₁ <:+ l₂) : l₁ <:+ a :: l₂ :=
  h.trans (List.suffix_cons a l₂)

theorem scanStr_suffix : ∀ s c r, scanStr s = some (c, r) → r <:+ s := by
  intro s
  induction s using scanStr.induct <;> intro cc rr h <;>
    simp_all [scanStr] <;>
    repeat (first | exact List.suffix_rfl | assumption | apply suffix_of_cons)

theorem skipWs_cons_suffix {s u : Str} {c : Char} (h : skipWs s = c :: u) : u <:+ s :=
  (List.suffix_cons c u).trans (h ▸ List.dropWhile_suffix isJsonWs)

theorem scanDigits_suffix (s : Str) : (scanDigits s).2 <:+ s :=
  List.dropWhile_suffix _

theorem scanSign_suffix (s : Str) : (scanSign s).2 <:+ s := by
  simp only [scanSign]
  split <;> (repeat (first | exact List.suffix_rfl | apply suffix_of_cons))

theorem scanMinus_suffix (s : Str) : (scanMinus s).2 <:+ s := by
  simp only [scanMinus]
  split <;> (repeat (first | exact List.suffix_rfl | apply suffix_of_cons))

theorem scanIntPart_suffix : ∀ s l r, scanIntPart s = some (l, r) → r <:+ s := by
  intro s l r h
  simp only [scanIntPart] at h
  split at h <;> (try split at h) <;> simp_all <;>
    (try obtain ⟨-, rfl⟩ := h) <;>
    repeat (first | exact List.suffix_rfl | exact scanDigits_suffix _ | apply suffix_of_cons)

theorem scanFrac_suffix : ∀ s l r, scanFrac s = some (l, r) → r <:+ s := by
  intro s l r h
  simp only [scanFrac] at h
  split at h <;> (try split at h) <;> simp_all <;>
    (try obtain ⟨-, rfl⟩ := h) <;>
    repeat (first | exact List.suffix_rfl | exact scanDigits_suffix _ | apply suffix_of_cons)

theorem scanExp_suffix : ∀ s l r, scanExp s = some (l, r) → r <:+ s := by
  intro s l r h
  simp only [scanExp] at h
  split at h <;> (try split at h) <;> (try split at h) <;> simp_all <;>
    (try obtain ⟨-, rfl⟩ := h) <;>
    (repeat' apply suffix_of_cons) <;>
    first
      | exact List.suffix_rfl
      | exact (scanDigits_suffix _).trans (scanSign_suffix _)

theorem scanNumber_suffix : ∀ s l r, scanNumber s = some (l, r) → r <:+ s := by
  intro s l r h
  simp only [scanNumber] at h
  rcases h1 : scanIntPart (scanMinus s).2 with _ | ⟨ip, s2⟩ <;> simp only [h1] at h
  · simp at h
  · rcases h2 : scanFrac s2 with _ | ⟨fp, s3⟩ <;> simp only [h2] at h
    · simp at h
    · rcases h3 : scanExp s3 with _ | ⟨ep, s4⟩ <;> simp only [h3] at h
      · simp at h
      · simp at h
        obtain ⟨-, rfl⟩ := h
        exact (((scanExp_suffix _ _ _ h3).trans (scanFrac_suffix _ _ _ h2)).trans
          (scanIntPart_suffix _ _ _ h1)).trans (scanMinus_suffix s)

theorem skipWs_suffix_of_eq {s t : Str} (h : skipWs s = t) : t <:+ s :=
  h ▸ List.dropWhile_suffix isJsonWs

theorem parseSuffix : ∀ f,
  (∀ s v r, parseValueF f s = some (v, r) → r <:+ s) ∧
  (∀ s fs r, parseMembersF f s = some (fs, r) → r <:+ s) ∧
  (∀ s es r, parseElemsF f s = some (es, r) → r <:+ s) := by
  intro f
  induction f with
  | zero =>
    refine ⟨?_, ?_, ?_⟩ <;> intro s a r h <;>
      simp [parseValueF, parseMembersF, parseElemsF] at h
  | succ n ih =>
    obtain ⟨ihv, ihm, ihe⟩ := ih
    refine ⟨?_, ?_, ?_⟩
    · intro s v r h
      simp only [parseValueF] at h
      split at h <;> try (simp at h)
      · -- object branch
        rename_i u heq
        split at h <;> try (simp at h)
        · rename_i rest heq2
          obtain ⟨-, rfl⟩ := h
          exact (skipWs_cons_suffix heq2).trans (skipWs_cons_suffix heq)
        · split at h <;> simp at h
          rename_i heq3
          obtain ⟨-, rfl⟩ := h
          exact (ihm _ _ _ heq3).trans (skipWs_cons_suffix heq)
      · -- array branch
        rename_i u heq
        split at h <;> try (simp at h)
        · rename_i rest heq2
          obtain ⟨-, rfl⟩ := h
          exact (skipWs_cons_suffix heq2).trans (skipWs_cons_suffix heq)
        · split at h <;> simp at h
          rename_i heq3
          obtain ⟨-, rfl⟩ := h
          exact (ihe _ _ _ heq3).trans (skipWs_cons_suffix heq)
      · -- string branch
        rename_i u heq
        split at h <;> simp at h
        rename_i content rest heq2
        obtain ⟨-, rfl⟩ := h
        exact (scanStr_suffix _ _ _ heq2).trans (skipWs_cons_suffix heq)
      · -- literal and number branch
        rename_i heq
        have hcs := skipWs_suffix_of_eq heq
        split at h <;> try (simp at h)
        · obtain ⟨-, rfl⟩ := h
          exact (List.drop_suffix _ _).trans ((List.suffix_cons _ _).trans hcs)
        · split at h <;> try (simp at h)
          · obtain ⟨-, rfl⟩ := h
            exact (List.drop_suffix _ _).trans ((List.suffix_cons _ _).trans hcs)
          · split at h <;> try (simp at h)
            · obtain ⟨-, rfl⟩ := h
              exact (List.drop_suffix _ _).trans ((List.suffix_cons _ _).trans hcs)
            · split at h <;> simp at h
              rename_i heq2
              obtain ⟨-, rfl⟩ := h
              exact (scanNumber_suffix _ _ _ heq2).trans hcs
    · intro s fs r h
      simp only [parseMembersF] at h
      split at h <;> try (simp at h)
      rename_i u heq
      split at h <;> try (simp at h)
      rename_i k r1 heq2
      split at h <;> try (simp at h)
      rename_i r2 heq3
      split at h <;> try (simp at h)
      rename_i v r3 heq4
      have hchain : r3 <:+ s :=
        (ihv _ _ _ heq4).trans ((skipWs_cons_suffix heq3).trans
          ((scanStr_suffix _ _ _ heq2).trans (skipWs_cons_suffix heq)))
      split at h <;> try (simp at h)
      · rename_i r4 heq5
        split at h <;> simp at h
        rename_i heq6
        obtain ⟨-, rfl⟩ := h
        exact (ihm _ _ _ heq6).trans ((skipWs_cons_suffix heq5).trans hchain)
      · rename_i r4 heq5
        obtain ⟨-, rfl⟩ := h
        exact (skipWs_cons_suffix heq5).trans hchain
    · intro s es r h
      simp only [parseElemsF] at h
      split at h <;> try (simp at h)
      rename_i v r1 heq
      split at h <;> try (simp at h)
      · rename_i r2 heq2
        split at h <;> simp at h
        rename_i heq3
        obtain ⟨-, rfl⟩ := h
        exact (ihe _ _ _ heq3).trans ((skipWs_cons_suffix heq2).trans (ihv _ _ _ heq))
      · rename_i r2 heq2
        obtain ⟨-, rfl⟩ := h
        exact (skipWs_cons_suffix heq2).trans (ihv _ _ _ heq)

theorem eq_append_of_skipWs {s u : Str} {c : Char} (h : skipWs s = c :: u) :
    ∃ a, s = a ++ c :: u :=
  ⟨s.takeWhile isJsonWs, by rw [← h]; exact (List.takeWhile_append_dropWhile _ _).symm⟩

theorem parseValueF_obj_head : ∀ f s fs r, parseValueF f s = some (Json.obj fs, r) →
    ∃ u, skipWs s = '{' :: u := by
  intro f s fs r h
  match f with
  | 0 => simp [parseValueF] at h
  | n + 1 =>
    simp only [parseValueF] at h
    split at h <;> try (simp at h)
    · rename_i u heq
      exact ⟨u, heq⟩
    · split at h <;> try (simp at h)
      split at h <;> simp at h
    · split at h <;> simp at h
    · split at h <;> try (simp at h)
      split at h <;> try (simp at h)
      split at h <;> try (simp at h)
      split at h <;> simp at h

theorem parseMembersF_shape : ∀ f s fs r, parseMembersF f s = some (fs, r) →
    ∃ pre, s = pre ++ '}' :: r := by
  intro f
  induction f with
  | zero => intro s fs r h; simp [parseMembersF] at h
  | succ n ih =>
    intro s fs r h
    simp only [parseMembersF] at h
    split at h <;> try (simp at h)
    rename_i u heq
    split at h <;> try (simp at h)
    rename_i k r1 heq2
    split at h <;> try (simp at h)
    rename_i r2 heq3
    split at h <;> try (simp at h)
    rename_i v r3 heq4
    obtain ⟨a0, hs⟩ := eq_append_of_skipWs heq
    obtain ⟨a1, hu⟩ := scanStr_suffix _ _ _ heq2
    obtain ⟨a2, hr1⟩ := eq_append_of_skipWs heq3
    obtain ⟨a3, hr2⟩ := (parseSuffix n).1 _ _ _ heq4
    split at h <;> try (simp at h)
    · rename_i r4 heq5
      split at h <;> simp at h
      rename_i heq6
      obtain ⟨-, rfl⟩ := h
      obtain ⟨a4, hr3⟩ := eq_append_of_skipWs heq5
      obtain ⟨pre', hr4⟩ := ih _ _ _ heq6
      refine ⟨a0 ++ '"' :: (a1 ++ (a2 ++ ':' :: (a3 ++ (a4 ++ ',' :: pre')))), ?_⟩
      rw [hs, ← hu, hr1, ← hr2, hr3, hr4]
      simp
    · rename_i r4 heq5
      obtain ⟨-, rfl⟩ := h
      obtain ⟨a4, hr3⟩ := eq_append_of_skipWs heq5
      refine ⟨a0 ++ '"' :: (a1 ++ (a2 ++ ':' :: (a3 ++ a4))), ?_⟩
      rw [hs, ← hu, hr1, ← hr2, hr3]
      simp

theorem parseValueF_obj_shape : ∀ f s fs r, parseValueF f s = some (Json.obj fs, r) →
    ∃ pre, s = pre ++ '}' :: r := by
  intro f s fs r h
  match f with
  | 0 => simp [parseValueF] at h
  | n + 1 =>
    simp only [parseValueF] at h
    split at h <;> try (simp at h)
    · rename_i u heq
      split at h <;> try (simp at h)
      · rename_i rest heq2
        obtain ⟨-, rfl⟩ := h
        obtain ⟨a0, hs⟩ := eq_append_of_skipWs heq
        obtain ⟨a1, hu⟩ := eq_append_of_skipWs heq2
        exact ⟨a0 ++ '{' :: a1, by rw [hs, hu]; simp⟩
      · split at h <;> simp at h
        rename_i heq3
        obtain ⟨-, rfl⟩ := h
        obtain ⟨a0, hs⟩ := eq_append_of_skipWs heq
        obtain ⟨pre', hu⟩ := parseMembersF_shape _ _ _ _ heq3
        exact ⟨a0 ++ '{' :: pre', by rw [hs, hu]; simp⟩
    · split at h <;> try (simp at h)
      split at h <;> simp at h
    · split at h <;> simp at h
    · split at h <;> try (simp at h)
      split at h <;> try (simp at h)
      split at h <;> try (simp at h)
      split at h <;> simp at h

theorem isJsonWs_to_isJsWs {c : Char} (h : isJsonWs c = true) : isJsWs c = true := by
  simp only [isJsonWs, Bool.or_eq_true, decide_eq_true_eq] at h
  rcases h with ((rfl | rfl) | rfl) | rfl <;> rfl

theorem dropWhile_head_false {p : Char → Bool} :
    ∀ {l res : Str} {c : Char}, l.dropWhile p = c :: res → p c = false := by
  intro l
  induction l with
  | nil => intro res c h; simp at h
  | cons a t ih =>
    intro res c h
    rw [List.dropWhile_cons] at h
    split at h
    · exact ih h
    · injection h with h1 _
      subst h1
      simpa using ‹¬ p a = true›

theorem getLast?_of_suffix {l₁ l₂ : Str} (h : l₁ <:+ l₂) (hne : l₁ ≠ []) :
    l₂.getLast? = l₁.getLast? := by
  obtain ⟨a, rfl⟩ := h
  rw [List.getLast?_append]
  rcases l₁ with _ | ⟨x, xs⟩
  · exact absurd rfl hne
  · rcases hgl : (x :: xs).getLast? with _ | ⟨y⟩
    · simp [List.getLast?_eq_none_iff] at hgl
    · simp [hgl]

theorem jsTrim_head_not_ws {l res : Str} {c : Char} (h : jsTrim l = c :: res) :
    isJsWs c = false :=
  dropWhile_head_false h

theorem jsTrim_getLast_not_ws {l : Str} {c : Char} (h : (jsTrim l).getLast? = some c) :
    isJsWs c = false := by
  have hne : jsTrim l ≠ [] := by
    intro he
    rw [he] at h
    simp at h
  have h2 : (dropTrail isJsWs l).getLast? = some c := by
    rw [getLast?_of_suffix (List.dropWhile_suffix isJsWs) hne]
    exact h
  rw [show dropTrail isJsWs l = (l.reverse.dropWhile isJsWs).reverse from rfl,
    List.getLast?_reverse] at h2
  rcases hd : l.reverse.dropWhile isJsWs with _ | ⟨x, xs⟩
  · rw [hd] at h2
    simp at h2
  · rw [hd] at h2
    simp at h2
    subst h2
    exact dropWhile_head_false hd

theorem head_cons_not_of_false {p : Char → Bool} {c : Char} {t : Str}
    (hc : p c = false) : (c :: t).dropWhile p = c :: t := by
  simp [List.dropWhile_cons, hc]

theorem jsTrim_eq_self {x : Str} {ch cl : Char}
    (hh : x.head? = some ch) (hch : isJsWs ch = false)
    (hl : x.getLast? = some cl) (hcl : isJsWs cl = false) : jsTrim x = x := by
  rcases x with _ | ⟨a, t⟩
  · simp at hh
  · simp at hh
    subst hh
    have h1 : dropTrail isJsWs (a :: t) = a :: t := by
      have hrev : (a :: t).reverse.head? = some cl := by
        rw [List.head?_reverse]
        exact hl
      rcases hr : (a :: t).reverse with _ | ⟨b, bs⟩
      · simp at hr
      · rw [hr] at hrev
        simp at hrev
        subst hrev
        rw [show dropTrail isJsWs (a :: t) = ((a :: t).reverse.dropWhile isJsWs).reverse from rfl,
          hr, head_cons_not_of_false hcl, ← hr]
        simp
    rw [show jsTrim (a :: t) = (dropTrail isJsWs (a :: t)).dropWhile isJsWs from rfl,
      h1, head_cons_not_of_false hch]

theorem jsTrim_append_ws {l : Str} {c : Char} (hc : isJsWs c = true) :
    jsTrim (l ++ [c]) = jsTrim l := by
  have h1 : dropTrail isJsWs (l ++ [c]) = dropTrail isJsWs l := by
    rw [show dropTrail isJsWs (l ++ [c]) = ((l ++ [c]).reverse.dropWhile isJsWs).reverse from rfl,
      List.reverse_append]
    simp [List.dropWhile_cons, hc, dropTrail]
  rw [show jsTrim (l ++ [c]) = (dropTrail isJsWs (l ++ [c])).dropWhile isJsWs from rfl, h1]
  rfl

theorem skipWs_eq_self_of_head {c : Char} {t : Str} (hc : isJsWs c = false) :
    skipWs (c :: t) = c :: t := by
  have : isJsonWs c = false := by
    rcases hj : isJsonWs c with _ | _
    · rfl
    · exact absurd (isJsonWs_to_isJsWs hj) (by simp [hc])
  simp [skipWs, List.dropWhile_cons, this]

theorem parseJson_obj_bounds {t : Str} {fs : List (Str × Json)}
    (ht : jsTrim t = t) (h : parseJson t = some (Json.obj fs)) :
    t.head? = some '{' ∧ t.getLast? = some '}' := by
  rcases hp : parseValueF (2 * t.length + 2) t with _ | ⟨v, rest⟩ <;>
    simp only [parseJson, hp] at h
  · simp at h
  split at h
  · rename_i hemp
    simp at h
    subst h
    obtain ⟨u, hsk⟩ := parseValueF_obj_head _ _ _ _ hp
    obtain ⟨pre, hshape⟩ := parseValueF_obj_shape _ _ _ _ hp
    have hhead : t.head? = some '{' := by
      rcases htc : t with _ | ⟨c, tt⟩
      · rw [htc] at hsk
        simp [skipWs] at hsk
      · have hcw : isJsWs c = false := jsTrim_head_not_ws (htc ▸ ht)
        rw [htc, skipWs_eq_self_of_head hcw] at hsk
        injection hsk with h1 _
        simp [h1]
    refine ⟨hhead, ?_⟩
    have hallws : ∀ y ∈ rest, isJsonWs y = true := List.dropWhile_eq_nil_iff.mp hemp
    have hrest : rest = [] := by
      rcases hr : rest with _ | ⟨x, xs⟩
      · rfl
      · exfalso
        rcases hgl : (x :: xs).getLast? with _ | ⟨y⟩
        · simp [List.getLast?_eq_none_iff] at hgl
        · have hylast : t.getLast? = some y := by
            rw [hshape, hr, List.getLast?_append]
            simp [hgl]
          have hyws : isJsWs y = false := jsTrim_getLast_not_ws (ht.symm ▸ hylast)
          have hymem : y ∈ x :: xs := by
            rcases List.getLast?_eq_getLast (x :: xs) (by simp) with hg
            rw [hg] at hgl
            injection hgl with h2
            rw [← h2]
            exact List.getLast_mem (by simp)
          rw [← hr] at hymem
          exact absurd (isJsonWs_to_isJsWs (hallws y hymem)) (by simp [hyws])
    rw [hshape, hrest, List.getLast?_concat]
  · simp at h

theorem ticks_isPrefixOf (x : Str) :
    (S "```").isPrefixOf ('`' :: '`' :: '`' :: x) = true := by
  simp [S, List.isPrefixOf]

theorem json_not_isPrefixOf_nl (x : Str) :
    (S "json").isPrefixOf ('\n' :: x) = false := by
  simp [S, List.isPrefixOf]

theorem ticks_not_isPrefixOf_lbrace (x : Str) :
    (S "```").isPrefixOf ('{' :: x) = false := by
  simp [S, List.isPrefixOf]

theorem ticks_not_isPrefixOf_rbrace (x : Str) :
    (S "```").isPrefixOf ('}' :: x) = false := by
  simp [S, List.isPrefixOf]

theorem ticks_reverse : (S "```").reverse = S "```" := rfl

theorem jsTrim_idem (s : Str) : jsTrim (jsTrim s) = jsTrim s := by
  rcases hh : jsTrim s with _ | ⟨c, t⟩
  · rfl
  · have hc : isJsWs c = false := jsTrim_head_not_ws hh
    rcases hgl : (c :: t).getLast? with _ | ⟨y⟩
    · simp [List.getLast?_eq_none_iff] at hgl
    · have hy : isJsWs y = false := jsTrim_getLast_not_ws (hh ▸ hgl)
      exact jsTrim_eq_self (by simp) hc hgl hy

theorem stripFences_eq_self {t : Str} (hh : t.head? = some '{')
    (hl : t.getLast? = some '}') : stripFences t = t := by
  rcases t with _ | ⟨c, tt⟩
  · simp at hh
  · simp at hh
    subst hh
    have hrev : ∃ y, ('{' :: tt).reverse = '}' :: y := by
      have h0 : ('{' :: tt).reverse.head? = some '}' := by
        rw [List.head?_reverse]
        exact hl
      rcases hr : ('{' :: tt).reverse with _ | ⟨b, bs⟩
      · simp at hr
      · rw [hr] at h0
        simp at h0
        subst h0
        exact ⟨bs, rfl⟩
    obtain ⟨y, hy⟩ := hrev
    have hcond : (S "```").isSuffixOf ('{' :: tt) = false := by
      simp only [List.isSuffixOf]
      rw [hy, ticks_reverse, ticks_not_isPrefixOf_rbrace]
    simp only [stripFences, ticks_not_isPrefixOf_lbrace, Bool.false_eq_true, if_false, hcond]

theorem stripFences_fenced (tag s : Str) (htag : tag = [] ∨ tag = S "json") :
    stripFences (S "```" ++ tag ++ S "\n" ++ s ++ S "\n```") = jsTrim s := by
  have hsuf : (S "```").isSuffixOf (s ++ ['\n', '`', '`', '`']) = true := by
    simp only [List.isSuffixOf]
    rw [ticks_reverse, List.reverse_append]
    exact ticks_isPrefixOf _
  have hrest : jsTrim (((s ++ ['\n', '`', '`', '`']).reverse.drop 3).reverse) = jsTrim s := by
    rw [List.reverse_append]
    simp only [List.reverse_cons, List.reverse_nil, List.nil_append, List.cons_append,
      List.drop_succ_cons, List.drop_zero]
    rw [List.reverse_reverse]
    exact jsTrim_append_ws rfl
  rcases htag with rfl | rfl
  · rw [show S "```" ++ [] ++ S "\n" ++ s ++ S "\n```" =
        '`' :: '`' :: '`' :: '\n' :: (s ++ ['\n', '`', '`', '`']) by simp [S]]
    simp only [stripFences, ticks_isPrefixOf, if_true, List.drop_succ_cons, List.drop_zero,
      json_not_isPrefixOf_nl, Bool.false_eq_true, if_false, List.head?_cons, hsuf]
    exact hrest
  · rw [show S "```" ++ S "json" ++ S "\n" ++ s ++ S "\n```" =
        '`' :: '`' :: '`' :: 'j' :: 's' :: 'o' :: 'n' :: '\n' :: (s ++ ['\n', '`', '`', '`']) by
          simp [S]]
    simp only [stripFences, ticks_isPrefixOf, if_true, List.drop_succ_cons, List.drop_zero,
      show ∀ x : Str, (S "json").isPrefixOf ('j' :: 's' :: 'o' :: 'n' :: x) = true by
        intro x
        simp [S, List.isPrefixOf],
      List.head?_cons, hsuf]
    exact hrest

theorem fenced_reshape (tag s : Str) (htag : tag = [] ∨ tag = S "json") :
    ∃ mid : Str, S "```" ++ tag ++ S "\n" ++ s ++ S "\n```" =
      '`' :: mid ++ ['`'] := by
  rcases htag with rfl | rfl
  · exact ⟨'`' :: '`' :: '\n' :: (s ++ ['\n', '`', '`']), by simp [S]⟩
  · exact ⟨'`' :: '`' :: 'j' :: 's' :: 'o' :: 'n' :: '\n' :: (s ++ ['\n', '`', '`']),
      by simp [S]⟩

theorem normalizeReply_fenced (tag s : Str) (fs : List (Str × Json))
    (htag : tag = [] ∨ tag = S "json")
    (h : parseJson (jsTrim s) = some (Json.obj fs)) :
    normalizeReply (S "```" ++ tag ++ S "\n" ++ s ++ S "\n```") = normalizeReply s ∧
    normalizeReply s = Except.ok (Json.obj fs) := by
  obtain ⟨hhead, hlast⟩ := parseJson_obj_bounds (jsTrim_idem s) h
  have hsf : stripFences (jsTrim s) = jsTrim s := stripFences_eq_self hhead hlast
  have hn2 : normalizeReply s = Except.ok (Json.obj fs) := by
    rw [normalizeReply, hsf]
    simp only [parseWithFallback, h]
  obtain ⟨mid, hmid⟩ := fenced_reshape tag s htag
  have hwtrim : jsTrim (S "```" ++ tag ++ S "\n" ++ s ++ S "\n```") =
      S "```" ++ tag ++ S "\n" ++ s ++ S "\n```" := by
    apply @jsTrim_eq_self _ '`' '`' ?_ rfl ?_ rfl
    · rw [hmid]
      simp
    · rw [hmid, show ('`' : Char) :: mid ++ ['`'] = ('`' :: mid) ++ ['`'] by simp,
        List.getLast?_concat]
  refine ⟨?_, hn2⟩
  rw [normalizeReply, hwtrim, stripFences_fenced tag s htag, normalizeReply, hsf]

theorem head_eq_of_head? {l : Str} {c : Char} (h : l.head? = some c) :
    ∃ t, l = c :: t := by
  rcases l with _ | ⟨a, t⟩
  · simp at h
  · simp at h
    exact ⟨t, by rw [h]⟩

theorem extractBraces_decomp (pre obj post : Str)
    (hpre : ∀ c ∈ pre, ¬ c = '{') (hpost : ∀ c ∈ post, ¬ c = '}')
    (hh : obj.head? = some '{') (hl : obj.getLast? = some '}') :
    extractBraces (pre ++ obj ++ post) = some obj := by
  obtain ⟨t0, hobj⟩ := head_eq_of_head? hh
  have hlen : 2 ≤ obj.length := by
    rcases t0 with _ | ⟨b, bs⟩
    · rw [hobj] at hl
      simp at hl
    · rw [hobj]
      simp only [List.length_cons]
      omega
  have hobjrev : ∃ y, obj.reverse = '}' :: y := by
    have h0 : obj.reverse.head? = some '}' := by
      rw [List.head?_reverse]
      exact hl
    obtain ⟨y, hy⟩ := head_eq_of_head? h0
    exact ⟨y, hy⟩
  obtain ⟨y, hy⟩ := hobjrev
  have hi : ((pre ++ obj ++ post).takeWhile (fun c => ¬(c = '{'))).length = pre.length := by
    rw [List.append_assoc, List.takeWhile_append]
    rw [List.takeWhile_eq_self_iff.mpr (by simpa using hpre)]
    rw [if_pos rfl, hobj]
    simp
  have hk : ((pre ++ obj ++ post).reverse.takeWhile (fun c => ¬(c = '}'))).length =
      post.length := by
    rw [List.reverse_append, List.reverse_append, List.takeWhile_append]
    rw [List.takeWhile_eq_self_iff.mpr (by simp; intro c hc; exact hpost c (by simpa using hc))]
    rw [if_pos rfl, hy]
    simp
  have hlsum : (pre ++ obj ++ post).length = pre.length + (obj.length + post.length) := by
    simp
  unfold extractBraces
  rw [hi, hk, if_pos (by omega)]
  congr 1
  rw [List.append_assoc, List.drop_left]
  rw [show (pre ++ (obj ++ post)).length - post.length - pre.length = obj.length from by
    simp only [List.length_append]
    omega]
  exact List.take_left' rfl

theorem mapPages_length : ∀ es ps, mapPages es = Except.ok ps → ps.length = es.length := by
  intro es
  induction es with
  | nil =>
    intro ps h
    simp [mapPages] at h
    simp [← h]
  | cons p rest ih =>
    intro ps h
    simp only [mapPages] at h
    rcases h1 : mkPage p with e | q <;> rw [h1] at h
    · simp at h
    · rcases h2 : mapPages rest with e | qs <;> rw [h2] at h
      · simp at h
      · simp at h
        rw [← h, List.length_cons, ih qs h2, List.length_cons]

theorem mapPages_mem : ∀ es ps, mapPages es = Except.ok ps → ∀ q ∈ ps,
    ∃ p ∈ es, mkPage p = Except.ok q := by
  intro es
  induction es with
  | nil =>
    intro ps h q hq
    simp [mapPages] at h
    rw [h] at hq
    simp at hq
  | cons p rest ih =>
    intro ps h q hq
    simp only [mapPages] at h
    rcases h1 : mkPage p with e | q0 <;> rw [h1] at h
    · simp at h
    · rcases h2 : mapPages rest with e | qs <;> rw [h2] at h
      · simp at h
      · simp at h
        rw [← h] at hq
        rcases List.mem_cons.mp hq with rfl | hmem
        · exact ⟨p, List.mem_cons_self p rest, h1⟩
        · obtain ⟨p', hp', hok⟩ := ih qs h2 q hmem
          exact ⟨p', List.mem_cons_of_mem p hp', hok⟩

theorem genPagesA_length (il : Nat → Except Str (Option Str))
    (nr : Nat → Except Str (Option (Str × Str))) :
    ∀ pages i, (genPagesA il nr i pages).length = pages.length := by
  intro pages
  induction pages with
  | nil => intro i; rfl
  | cons p ps ih =>
    intro i
    simp only [genPagesA, List.length_cons, ih]

theorem genPagesA_get (il : Nat → Except Str (Option Str))
    (nr : Nat → Except Str (Option (Str × Str))) :
    ∀ pages i j (hj : j < (genPagesA il nr i pages).length),
      (genPagesA il nr i pages).get ⟨j, hj⟩ =
        PageOutA.mk (pages.get ⟨j, by rw [← genPagesA_length il nr pages i]; exact hj⟩).text
          (pages.get ⟨j, by rw [← genPagesA_length il nr pages i]; exact hj⟩).image_prompt
          (generateIllustrationA (il (i + j))) (generateNarrationA (nr (i + j))) := by
  intro pages
  induction pages with
  | nil =>
    intro i j hj
    simp [genPagesA] at hj
  | cons p ps ih =>
    intro i j hj
    rcases j with _ | j'
    · simp [genPagesA]
    · simp only [genPagesA, List.get_cons_succ]
      rw [ih (i + 1) j']
      simp only [Nat.add_assoc, Nat.add_comm 1 j']

/-
The claims.
-/

/-- C1 (corrected to the generate-ai.js normalizer): a raw reply consisting of
a valid JSON object wrapped in a single pair of code fences — bare or with
the `json` language tag, newline-separated — normalizes to the same
StoryDocument as the unwrapped reply: fence stripping followed by parsing
equals parsing the unfenced text directly, both yielding the parsed object. -/
theorem C1_fenced_normalizes_like_unwrapped (tag s : Str) (fs : List (Str × Json))
    (htag : tag = [] ∨ tag = S "json")
    (h : parseJson (jsTrim s) = some (Json.obj fs)) :
    normalizeReply (S "```" ++ tag ++ S "\n" ++ s ++ S "\n```") = normalizeReply s ∧
    normalizeReply s = Except.ok (Json.obj fs) :=
  normalizeReply_fenced tag s fs htag h

/-- Witness for C1: a concrete json-tagged fenced object. -/
theorem C1_witness :
    normalizeReply (S "```" ++ S "json" ++ S "\n" ++ S "\x7b\"title\":\"T\",\"pages\":[]\x7d" ++ S "\n```") =
      normalizeReply (S "\x7b\"title\":\"T\",\"pages\":[]\x7d") ∧
    normalizeReply (S "\x7b\"title\":\"T\",\"pages\":[]\x7d") =
      Except.ok (Json.obj [(S "title", Json.str (S "T")), (S "pages", Json.arr [])]) :=
  C1_fenced_normalizes_like_unwrapped (S "json") (S "\x7b\"title\":\"T\",\"pages\":[]\x7d")
    [(S "title", Json.str (S "T")), (S "pages", Json.arr [])] (Or.inr rfl) rfl

/-- Counterexample to C1 as stated over every iteration: the part_002
normalizer (`generateStoryStructure`, lines 280-292) strips only a
```json-tagged leading fence, so a valid object wrapped in a bare fence pair
fails to parse there, although the unwrapped reply parses. -/
theorem C1_counterexample :
    parseJson (jsTrim (S "\x7b\"a\":1\x7d")) = some (Json.obj [(S "a", Json.num (S "1"))]) ∧
    normalizeP2 (S "```" ++ S "\n" ++ S "\x7b\"a\":1\x7d" ++ S "\n```") =
      Except.error (S "SyntaxError") :=
  ⟨rfl, rfl⟩

/-- C2 (corrected): when a reply contains a valid JSON object whose
surrounding text has no `{` before it and no `}` after it, and the whole
text fails the strict parse, the first-`{`-to-last-`}` fallback of
`askForStory` (lines 59-68) extracts and parses exactly that object. -/
theorem C2_extraction_recovers_object (pre obj post : Str) (v : Json)
    (hpre : ∀ c ∈ pre, ¬ c = '{') (hpost : ∀ c ∈ post, ¬ c = '}')
    (hh : obj.head? = some '{') (hl : obj.getLast? = some '}')
    (hv : parseJson obj = some v)
    (hstrict : parseJson (pre ++ obj ++ post) = none) :
    parseWithFallback (pre ++ obj ++ post) = Except.ok v := by
  simp only [parseWithFallback, hstrict, extractBraces_decomp pre obj post hpre hpost hh hl, hv]

/-- Witness for C2: prose on both sides of a concrete object. -/
theorem C2_witness :
    parseWithFallback (S "Sure! " ++ S "\x7b\"a\":1\x7d" ++ S " ok.") =
      Except.ok (Json.obj [(S "a", Json.num (S "1"))]) :=
  C2_extraction_recovers_object (S "Sure! ") (S "\x7b\"a\":1\x7d") (S " ok.")
    (Json.obj [(S "a", Json.num (S "1"))])
    (by decide) (by decide) rfl rfl rfl rfl

/-- Counterexample to C2 as stated: trailing non-JSON text containing a `}`
defeats the greedy regex — the extracted span runs to the last `}` and fails
to parse, so normalization errors instead of returning the object. -/
theorem C2_counterexample :
    parseJson (S "\x7b\"a\":1\x7d") = some (Json.obj [(S "a", Json.num (S "1"))]) ∧
    normalizeReply (S "\x7b\"a\":1\x7d tail\x7d") = Except.error AErr.badExtract :=
  ⟨rfl, rfl⟩

/-- C3 (corrected): when the fence-stripped, trimmed reply fails the strict
parse and contains no `{`...`}` span, normalization fails with the
malformed-output error carrying `jsonText.slice(0, 1000)` — a preview of at
most 1000 characters, never the unbounded blob. -/
theorem C3_no_span_bounded_preview (raw : Str)
    (hstrict : parseJson (stripFences (jsTrim raw)) = none)
    (hnos : extractBraces (stripFences (jsTrim raw)) = none) :
    normalizeReply raw =
      Except.error (AErr.noObject ((stripFences (jsTrim raw)).take 1000)) ∧
    ((stripFences (jsTrim raw)).take 1000).length ≤ 1000 := by
  constructor
  · simp only [normalizeReply, parseWithFallback, hstrict, hnos]
  · rw [List.length_take]
    exact Nat.min_le_left _ _

/-- Witness for C3: a concrete reply with no brace span. -/
theorem C3_witness :
    normalizeReply (S "no json here") =
      Except.error (AErr.noObject ((stripFences (jsTrim (S "no json here"))).take 1000)) ∧
    ((stripFences (jsTrim (S "no json here"))).take 1000).length ≤ 1000 :=
  C3_no_span_bounded_preview (S "no json here") rfl rfl

/-- Counterexample to C3 as stated: the reply `42` has no
JSON-object-shaped substring, yet normalization succeeds (the strict parse
accepts any JSON value), so no MalformedModelOutput error is raised. -/
theorem C3_counterexample :
    extractBraces (S "42") = none ∧
    normalizeReply (S "42") = Except.ok (Json.num (S "42")) :=
  ⟨rfl, rfl⟩

/-- C4 (corrected to the sequential part_002 iteration, whose
`generateIllustration` catches failures): if the illustration sub-step fails
for page `k` (a thrown failure or an empty prediction list) and succeeds for
every other page, the assembled story still contains all pages, page `k`'s
`imageUrl` is `null`, and every other page's `imageUrl` is populated —
illustration failure does not abort the loop. -/
theorem C4_illustration_failure_isolated (pages : List PageA)
    (il : Nat → Except Str (Option Str)) (nr : Nat → Except Str (Option (Str × Str)))
    (k : Nat) (_hk : k < pages.length)
    (hfail : (∃ m, il k = Except.error m) ∨ il k = Except.ok none)
    (hsucc : ∀ j, j < pages.length → j ≠ k →
      ∃ b, il j = Except.ok (some b) ∧ ¬ b.isEmpty) :
    (generateFullStoryA pages il nr).length = pages.length ∧
    (∀ hk2 : k < (generateFullStoryA pages il nr).length,
      ((generateFullStoryA pages il nr).get ⟨k, hk2⟩).imageUrl = none) ∧
    (∀ j (hj : j < (generateFullStoryA pages il nr).length), j ≠ k →
      ((generateFullStoryA pages il nr).get ⟨j, hj⟩).imageUrl.isSome = true) := by
  refine ⟨genPagesA_length il nr pages 0, ?_, ?_⟩
  · intro hk2
    unfold generateFullStoryA
    rw [genPagesA_get il nr pages 0 k (by unfold generateFullStoryA at hk2; exact hk2)]
    simp only [Nat.zero_add]
    rcases hfail with ⟨m, hm⟩ | hnone
    · simp [hm, generateIllustrationA]
    · simp [hnone, generateIllustrationA]
  · intro j hj hne
    unfold generateFullStoryA
    rw [genPagesA_get il nr pages 0 j (by unfold generateFullStoryA at hj; exact hj)]
    simp only [Nat.zero_add]
    have hjlt : j < pages.length := by
      rw [← genPagesA_length il nr pages 0]
      unfold generateFullStoryA at hj
      exact hj
    obtain ⟨b, hb, hbne⟩ := hsucc j hjlt hne
    simp [hb, generateIllustrationA, hbne]

/-- Concrete pages for the C4 witness. -/
def c4pages : List PageA := [PageA.mk (S "t1") (S "i1"), PageA.mk (S "t2") (S "i2")]

/-- Concrete illustration outcomes for the C4 witness: the first page's
prediction list is empty, the second succeeds. -/
def c4il : Nat → Except Str (Option Str) :=
  fun i => if i = 0 then Except.ok none else Except.ok (some (S "AA"))

/-- Concrete narration outcomes for the C4 witness. -/
def c4nr : Nat → Except Str (Option (Str × Str)) :=
  fun _ => Except.ok (some (S "D", S "audio/L16;rate=24000"))

/-- Witness for C4: two pages, the first illustration returning an empty
prediction list, the second succeeding. -/
theorem C4_witness :
    (generateFullStoryA c4pages c4il c4nr).length = c4pages.length ∧
    (∀ hk2 : 0 < (generateFullStoryA c4pages c4il c4nr).length,
      ((generateFullStoryA c4pages c4il c4nr).get ⟨0, hk2⟩).imageUrl = none) ∧
    (∀ j (hj : j < (generateFullStoryA c4pages c4il c4nr).length), j ≠ 0 →
      ((generateFullStoryA c4pages c4il c4nr).get ⟨j, hj⟩).imageUrl.isSome = true) :=
  C4_illustration_failure_isolated c4pages c4il c4nr 0 (by decide) (Or.inr rfl)
    (fun j hj hne => by
      have hj2 : j < 2 := by simpa [c4pages] using hj
      have hj1 : j = 1 := by omega
      subst hj1
      exact ⟨S "AA", rfl, by decide⟩)

/-- Counterexample to C4 as stated over every iteration: in the parallel
part_002 iteration (lines 298-372) `generateIllustration` has no catch, so an
empty prediction list for the first page rejects the whole `Promise.all` and
story generation aborts with an error instead of returning pages. -/
theorem C4_counterexample :
    generateFullStoryB [PageA.mk (S "t1") (S "i1"), PageA.mk (S "t2") (S "i2")]
      (fun i => if i = 0 then Except.ok none else Except.ok (some (S "AA")))
      (fun _ => some (InlineData.mk (b64Encode [0, 0]) (S "audio/L16;rate=24000"))) =
      Except.error (S "Cannot read properties of undefined") := rfl

theorem mkPage_fields (p : Json) (src : Str)
    (hsrc : sliceSource (urlSource p) = Except.ok src) (hnn : ¬ p = Json.null) :
    mkPage p = Except.ok (Json.obj
      (optField (S "page_number") (jget p (S "page_number")) ++
       optField (S "text") (jget p (S "text")) ++
       [(S "imagePrompt", imagePromptChain p),
        (S "imageUrl", Json.str (placeholderUrl src)),
        (S "audioUrl", Json.null)])) := by
  rcases p with _ | b | l | s | es | fs
  · exact absurd rfl hnn
  all_goals simp [mkPage, hsrc]

theorem lookupLast_append_right (l1 l2 : List (Str × Json)) (k : Str)
    (h : ∀ kv ∈ l1, ¬ kv.1 = k) :
    lookupLast (l1 ++ l2) k = lookupLast l2 k := by
  induction l1 with
  | nil => rfl
  | cons kv rest ih =>
    simp only [List.cons_append, lookupLast, List.append_eq]
    rw [ih (fun kv hm => h kv (List.mem_cons_of_mem _ hm))]
    rcases hr : lookupLast l2 k with _ | v
    · rw [if_neg]
      intro he
      exact h kv (List.mem_cons_self _ _) he
    · rfl

theorem optField_keys (k : Str) (v? : Option Json) : ∀ kv ∈ optField k v?, kv.1 = k := by
  rcases v? with _ | v <;> simp [optField]

theorem mkPage_imageUrl_audioUrl (p : Json) (src : Str)
    (hsrc : sliceSource (urlSource p) = Except.ok src) (hnn : ¬ p = Json.null) :
    ∃ q, mkPage p = Except.ok q ∧
      jget q (S "imageUrl") = some (Json.str (placeholderUrl src)) ∧
      jget q (S "audioUrl") = some Json.null := by
  have hside : ∀ k2 : Str, ¬ (S "page_number" = k2) → ¬ (S "text" = k2) →
      ∀ kv ∈ optField (S "page_number") (jget p (S "page_number")) ++
        optField (S "text") (jget p (S "text")), ¬ kv.1 = k2 := by
    intro k2 h1 h2 kv hm
    rcases List.mem_append.mp hm with hm1 | hm1
    · rw [optField_keys _ _ kv hm1]
      exact h1
    · rw [optField_keys _ _ kv hm1]
      exact h2
  refine ⟨_, mkPage_fields p src hsrc hnn, ?_, ?_⟩
  · rw [jget, lookupLast_append_right _ _ _ (hside _ (by decide) (by decide))]
    simp [lookupLast, show ¬ (S "audioUrl" = S "imageUrl") from by decide,
      show ¬ (S "imagePrompt" = S "imageUrl") from by decide]
  · rw [jget, lookupLast_append_right _ _ _ (hside _ (by decide) (by decide))]
    simp [lookupLast, show ¬ (S "imagePrompt" = S "audioUrl") from by decide,
      show ¬ (S "imageUrl" = S "audioUrl") from by decide]

theorem mkPage_ok_fields (p q : Json) (h : mkPage p = Except.ok q) :
    ∃ src, jget q (S "imageUrl") = some (Json.str (placeholderUrl src)) ∧
      jget q (S "audioUrl") = some Json.null := by
  have hnn : ¬ p = Json.null := by
    intro he
    rw [he] at h
    simp [mkPage] at h
  rcases hs : sliceSource (urlSource p) with e | src
  · exfalso
    rcases p with _ | b | l | s | es | fs <;>
      simp [mkPage, hs] at h
  · obtain ⟨q', hq', hiu, hau⟩ := mkPage_imageUrl_audioUrl p src hs hnn
    have hqq : q' = q := by
      rw [hq'] at h
      exact Except.ok.inj h
    exact ⟨src, hqq ▸ hiu, hqq ▸ hau⟩

/-- The page array inside a response body, as a client would read it
(`body.story.pages`); empty when absent. -/
def storyPagesOf : RBody → List Json
  | RBody.json b =>
    (match jget b (S "story") with
     | some st =>
       (match jget st (S "pages") with
        | some (Json.arr l) => l
        | _ => [])
     | none => [])
  | RBody.text _ => []

theorem storyPagesOf_successBody (t : Json) (ps : List Json) :
    storyPagesOf (successBody t ps) = ps := rfl

/-- C6 (confirmed): when a page of the normalized story has no `imagePrompt`
field but a nonempty `text` string, the input to the placeholder illustration
URL falls back to that text, truncated to at most 60 characters
(line 105: `(p.imagePrompt || p.text || '').slice(0, 60)`). -/
theorem C6_missing_imagePrompt_uses_text (p : Json) (tx : Str)
    (hip : jget p (S "imagePrompt") = none)
    (htx : jget p (S "text") = some (Json.str tx))
    (hne : tx.isEmpty = false) :
    ∃ q, mkPage p = Except.ok q ∧
      jget q (S "imageUrl") = some (Json.str (placeholderUrl tx)) ∧
      (tx.take 60).length ≤ 60 := by
  have hnn : ¬ p = Json.null := by
    intro he
    rw [he] at htx
    simp [jget] at htx
  have hus : urlSource p = Json.str tx := by
    simp [urlSource, hip, htx, jsOr, jsTruthy, hne]
  have hsrc : sliceSource (urlSource p) = Except.ok tx := by
    rw [hus]
    rfl
  obtain ⟨q, hq, hiu, -⟩ := mkPage_imageUrl_audioUrl p tx hsrc hnn
  refine ⟨q, hq, hiu, ?_⟩
  rw [List.length_take]
  exact Nat.min_le_left _ _

/-- Witness for C6: a page with only a text field. -/
theorem C6_witness :
    ∃ q, mkPage (Json.obj [(S "text", Json.str (S "hello"))]) = Except.ok q ∧
      jget q (S "imageUrl") = some (Json.str (placeholderUrl (S "hello"))) ∧
      ((S "hello").take 60).length ≤ 60 :=
  C6_missing_imagePrompt_uses_text (Json.obj [(S "text", Json.str (S "hello"))])
    (S "hello") rfl rfl rfl

/-- C7 (confirmed): whatever page count the request asked for, the 200
response contains exactly the pages of the normalized collaborator reply —
one outgoing page per reply page, in order, none invented, none dropped —
even when the reply's page count differs from `requestedPageCount`. -/
theorem C7_page_count_passthrough (e : Event) (collab : Except Str Str)
    (bodyJ : Json) (pstr : Str) (storyJson : Json) (es ps : List Json) (pc : Int)
    (hm : e.httpMethod = S "POST")
    (hb : parseJson (bodyTextOf e) = some bodyJ)
    (hvp : validPrompt bodyJ = Except.ok (some pstr))
    (hstory : askForStory collab = Except.ok storyJson)
    (hpages : pagesArr storyJson = Except.ok es)
    (hmp : mapPages es = Except.ok ps)
    (hpc : requestedPageCount bodyJ = some pc)
    (hmismatch : (es.length : Int) ≠ pc) :
    handler e collab = Response.mk 200 (successBody (titleOf storyJson) ps) ∧
    ps.length = es.length := by
  constructor
  · unfold handler handleStory
    rw [hm, if_neg (by decide : ¬ (S "POST" = S "GET")), if_neg (not_not_intro rfl)]
    simp only [hb, hvp, promptGate, hstory, hpages, hmp]
  · exact mapPages_length es ps hmp

/-- Witness for C7: one page returned against a requested count of five. -/
theorem C7_witness :
    handler (Event.mk (S "POST") (some (S "\x7b\"prompt\":\"p\",\"pageCount\":5\x7d")))
        (Except.ok (S "\x7b\"title\":\"T\",\"pages\":[\x7b\"text\":\"hi\"\x7d]\x7d")) =
      Response.mk 200 (successBody (Json.str (S "T"))
        [Json.obj [(S "text", Json.str (S "hi")),
          (S "imagePrompt", Json.str []),
          (S "imageUrl", Json.str (placeholderUrl (S "hi"))),
          (S "audioUrl", Json.null)]]) ∧
    ([Json.obj [(S "text", Json.str (S "hi")),
      (S "imagePrompt", Json.str []),
      (S "imageUrl", Json.str (placeholderUrl (S "hi"))),
      (S "audioUrl", Json.null)]].length : Nat) =
      ([Json.obj [(S "text", Json.str (S "hi"))]].length : Nat) := by
  have h := C7_page_count_passthrough
    (Event.mk (S "POST") (some (S "\x7b\"prompt\":\"p\",\"pageCount\":5\x7d")))
    (Except.ok (S "\x7b\"title\":\"T\",\"pages\":[\x7b\"text\":\"hi\"\x7d]\x7d"))
    (Json.obj [(S "prompt", Json.str (S "p")), (S "pageCount", Json.num (S "5"))])
    (S "p")
    (Json.obj [(S "title", Json.str (S "T")),
      (S "pages", Json.arr [Json.obj [(S "text", Json.str (S "hi"))]])])
    [Json.obj [(S "text", Json.str (S "hi"))]]
    [Json.obj [(S "text", Json.str (S "hi")),
      (S "imagePrompt", Json.str []),
      (S "imageUrl", Json.str (placeholderUrl (S "hi"))),
      (S "audioUrl", Json.null)]]
    5 rfl rfl rfl rfl rfl rfl rfl (by decide)
  exact ⟨h.1.trans (by rfl), h.2⟩

/-- C9 (confirmed): the handler is total — every event yields a well-formed
response whose status is 200, 400, 405 or 500 — and a POST whose body is not
valid JSON is caught by the outer try and answered 500 with a JSON error
payload, not 400; likewise in the part_000 iteration. -/
theorem C9_total_and_bad_body_is_500 :
    (∀ e collab, (handler e collab).statusCode = 200 ∨
      (handler e collab).statusCode = 400 ∨
      (handler e collab).statusCode = 405 ∨
      (handler e collab).statusCode = 500) ∧
    (∀ e collab, e.httpMethod = S "POST" → parseJson (bodyTextOf e) = none →
      handler e collab = Response.mk 500 (errObj jsonSyntaxErrMsg) ∧
      handlerP0 e collab = Response.mk 500 (errObj jsonSyntaxErrMsg)) := by
  constructor
  · intro e collab
    unfold handler promptGate handleStory
    repeat' split
    all_goals simp
  · intro e collab hm hb
    constructor
    · unfold handler
      rw [hm, if_neg (by decide : ¬ (S "POST" = S "GET")), if_neg (not_not_intro rfl)]
      simp only [hb]
    · unfold handlerP0
      simp only [hb]

/-- Witness for C9: a POST with an unparseable body gets exactly the 500
error response from both handler iterations. -/
theorem C9_witness :
    ((handler (Event.mk (S "POST") (some (S "not json"))) (Except.ok (S "x"))).statusCode = 200 ∨
      (handler (Event.mk (S "POST") (some (S "not json"))) (Except.ok (S "x"))).statusCode = 400 ∨
      (handler (Event.mk (S "POST") (some (S "not json"))) (Except.ok (S "x"))).statusCode = 405 ∨
      (handler (Event.mk (S "POST") (some (S "not json"))) (Except.ok (S "x"))).statusCode = 500) ∧
    handler (Event.mk (S "POST") (some (S "not json"))) (Except.ok (S "x")) =
      Response.mk 500 (errObj jsonSyntaxErrMsg) ∧
    handlerP0 (Event.mk (S "POST") (some (S "not json"))) (Except.ok (S "x")) =
      Response.mk 500 (errObj jsonSyntaxErrMsg) :=
  ⟨C9_total_and_bad_body_is_500.1 (Event.mk (S "POST") (some (S "not json"))) (Except.ok (S "x")),
    C9_total_and_bad_body_is_500.2 (Event.mk (S "POST") (some (S "not json")))
      (Except.ok (S "x")) rfl rfl⟩

/-- C10 (confirmed): in the primary iteration, every page of every 200
response has `audioUrl` exactly `null` and `imageUrl` a placeholder URL built
(by `placeholderUrl`) from the first 60 characters of the page's source text;
the handler invokes no image-generation or text-to-speech collaborator. -/
theorem C10_success_pages_placeholder_assets (e : Event) (collab : Except Str Str)
    (b : RBody) (h200 : handler e collab = Response.mk 200 b) :
    ∀ q ∈ storyPagesOf b,
      jget q (S "audioUrl") = some Json.null ∧
      ∃ src, jget q (S "imageUrl") = some (Json.str (placeholderUrl src)) := by
  unfold handler at h200
  by_cases hget : e.httpMethod = S "GET"
  · rw [if_pos hget] at h200
    simp only [Response.mk.injEq, true_and] at h200
    intro q hq
    rw [← h200, show storyPagesOf probeBody = [] from rfl] at hq
    simp at hq
  · rw [if_neg hget] at h200
    by_cases hpost : e.httpMethod = S "POST"
    · rw [if_neg (not_not_intro hpost)] at h200
      rcases hpb : parseJson (bodyTextOf e) with _ | bodyJ <;> simp only [hpb] at h200
      · simp at h200
      · rcases hvp : validPrompt bodyJ with u | p? <;> simp only [hvp, promptGate] at h200
        · simp at h200
        · rcases p? with _ | pstr
          · simp [promptGate] at h200
          · simp only [promptGate] at h200
            unfold handleStory at h200
            rcases has : askForStory collab with err | storyJson <;> simp only [has] at h200
            · simp at h200
            · rcases hpa : pagesArr storyJson with _ | es <;> simp only [hpa] at h200
              · simp at h200
              · rcases hmp : mapPages es with _ | ps <;> simp only [hmp] at h200
                · simp at h200
                · simp only [Response.mk.injEq, true_and] at h200
                  intro q hq
                  rw [← h200, storyPagesOf_successBody] at hq
                  obtain ⟨p, -, hok⟩ := mapPages_mem es ps hmp q hq
                  obtain ⟨src, hiu, hau⟩ := mkPage_ok_fields p q hok
                  exact ⟨hau, src, hiu⟩
    · rw [if_pos hpost] at h200
      simp at h200

/-- Witness for C10: the single page of a concrete 200 response. -/
theorem C10_witness :
    jget (Json.obj [(S "text", Json.str (S "hi")),
        (S "imagePrompt", Json.str []),
        (S "imageUrl", Json.str (placeholderUrl (S "hi"))),
        (S "audioUrl", Json.null)]) (S "audioUrl") = some Json.null ∧
    ∃ src, jget (Json.obj [(S "text", Json.str (S "hi")),
        (S "imagePrompt", Json.str []),
        (S "imageUrl", Json.str (placeholderUrl (S "hi"))),
        (S "audioUrl", Json.null)]) (S "imageUrl") =
      some (Json.str (placeholderUrl src)) :=
  C10_success_pages_placeholder_assets
    (Event.mk (S "POST") (some (S "\x7b\"prompt\":\"p\"\x7d")))
    (Except.ok (S "\x7b\"title\":\"T\",\"pages\":[\x7b\"text\":\"hi\"\x7d]\x7d"))
    (successBody (Json.str (S "T"))
      [Json.obj [(S "text", Json.str (S "hi")),
        (S "imagePrompt", Json.str []),
        (S "imageUrl", Json.str (placeholderUrl (S "hi"))),
        (S "audioUrl", Json.null)]])
    rfl
    (Json.obj [(S "text", Json.str (S "hi")),
      (S "imagePrompt", Json.str []),
      (S "imageUrl", Json.str (placeholderUrl (S "hi"))),
      (S "audioUrl", Json.null)])
    (List.mem_cons_self _ _)

theorem b64Val_b64Char : ∀ n, n < 64 → b64Val (b64Char n) = some n := by decide

theorem b64Char_ne_pad : ∀ n, n < 64 → ¬ b64Char n = '=' := by decide

theorem b64_roundtrip : ∀ bytes : List Nat, (∀ x ∈ bytes, x < 256) →
    b64Decode (b64Encode bytes) = bytes := by
  intro bytes
  induction bytes using b64Encode.induct with
  | case1 => intro h; rfl
  | case2 a =>
    intro h
    have ha : a < 256 := h a (by simp)
    simp only [b64Encode, b64Decode]
    rw [b64Val_b64Char _ (by omega), b64Val_b64Char _ (by omega)]
    simp only []
    congr 1
    omega
  | case3 a b =>
    intro h
    have ha : a < 256 := h a (by simp)
    have hb : b < 256 := h b (by simp)
    simp only [b64Encode]
    rw [b64Decode.eq_def]
    split
    · rename_i c1 c2 hd tl heq
      exfalso
      simp only [List.cons.injEq] at heq
      exact b64Char_ne_pad _ (by omega) heq.2.2.1
    · rename_i c1 c2 c3 tl hne heq
      simp only [List.cons.injEq] at heq
      obtain ⟨h1, h2, h3, -⟩ := heq
      rw [← h1, ← h2, ← h3, b64Val_b64Char _ (by omega), b64Val_b64Char _ (by omega),
        b64Val_b64Char _ (by omega)]
      simp only [List.cons.injEq, and_true]
      omega
    · rename_i c1 c2 c3 c4 r hne1 hne2 heq
      exfalso
      simp only [List.cons.injEq] at heq
      obtain ⟨-, -, -, h4, -⟩ := heq
      exact hne2 h4.symm
    · rename_i hne1 hne2 hne3
      exact absurd rfl (hne3 _ _ _ _ _)
  | case4 a b c r ih =>
    intro h
    have ha : a < 256 := h a (by simp)
    have hb : b < 256 := h b (by simp)
    have hc : c < 256 := h c (by simp)
    have hr : ∀ x ∈ r, x < 256 := fun x hx => h x (by simp [hx])
    simp only [b64Encode]
    rw [b64Decode.eq_def]
    split
    · rename_i c1 c2 hd tl heq
      exfalso
      simp only [List.cons.injEq] at heq
      exact b64Char_ne_pad _ (by omega) heq.2.2.1
    · rename_i c1 c2 c3 tl hne heq
      exfalso
      simp only [List.cons.injEq] at heq
      exact b64Char_ne_pad _ (by omega) heq.2.2.2.1
    · rename_i c1 c2 c3 c4 r' hne1 hne2 heq
      simp only [List.cons.injEq] at heq
      obtain ⟨h1, h2, h3, h4, h5⟩ := heq
      rw [← h1, ← h2, ← h3, ← h4, b64Val_b64Char _ (by omega), b64Val_b64Char _ (by omega),
        b64Val_b64Char _ (by omega), b64Val_b64Char _ (by omega)]
      simp only []
      rw [← h5, ih hr]
      simp only [List.cons.injEq]
      refine ⟨by omega, by omega, by omega, trivial⟩
    · rename_i hne1 hne2 hne3
      exact absurd rfl (hne3 _ _ _ _ _)

theorem bytesToI16_length (l : List Nat) : (bytesToI16 l).length = l.length / 2 := by
  induction l using bytesToI16.induct with
  | case1 lo hi r ih =>
    simp only [bytesToI16, List.length_cons, ih]
    omega
  | case2 l h =>
    rcases l with _ | ⟨x, _ | ⟨y, t⟩⟩
    · rfl
    · simp [bytesToI16]
    · exact absurd rfl (h x y t)

theorem flatMap_i16le_length (pcm : List Int) : (pcm.flatMap i16le).length = 2 * pcm.length := by
  induction pcm with
  | nil => rfl
  | cons x xs ih =>
    simp only [List.flatMap_cons, List.length_append, ih, i16le, u16le, List.length_cons,
      List.length_nil, List.length_cons]
    omega

theorem pcmToWav_length (pcm : List Int) (rate : Nat) :
    (pcmToWav pcm rate 1).length = 44 + 2 * pcm.length := by
  unfold pcmToWav
  simp only [List.length_append, flatMap_i16le_length]
  simp [asciiBytes, u32le, u16le, S]

set_option maxHeartbeats 2000000

/-- C8 (confirmed): for every successful text-to-speech reply, narration
decodes the sample rate from the `rate=` MIME parameter (16000 Hz when
absent), wraps the base64-decoded 16-bit little-endian PCM samples in a WAV
container whose 44-byte canonical header carries the RIFF/WAVE/fmt /data
chunks, mono, 16-bit, a data-chunk length of twice the sample count — and
returns it base64-encoded under the `audio/wav` data-URL prefix. -/
theorem C8_narration_builds_wav (bytes : List Nat) (m : Str) (pcm : List Int)
    (rate : Nat) (wav : List Nat)
    (hb : ∀ x ∈ bytes, x < 256) (heven : bytes.length % 2 = 0)
    (hpcm : pcm = bytesToI16 bytes)
    (hrate : rate = (findRate m).getD 16000)
    (hwav : wav = pcmToWav pcm rate 1) :
    generateNarrationB (some (InlineData.mk (b64Encode bytes) m)) =
      Except.ok (S "data:audio/wav;base64," ++ b64Encode wav) ∧
    wav.length = 44 + 2 * pcm.length ∧
    wav.take 4 = asciiBytes (S "RIFF") ∧
    (wav.drop 8).take 4 = asciiBytes (S "WAVE") ∧
    (wav.drop 12).take 4 = asciiBytes (S "fmt ") ∧
    (wav.drop 36).take 4 = asciiBytes (S "data") ∧
    (wav.drop 22).take 2 = u16le 1 ∧
    (wav.drop 34).take 2 = u16le 16 ∧
    (wav.drop 24).take 4 = u32le rate ∧
    (wav.drop 40).take 4 = u32le (pcm.length * 2) ∧
    (findRate m = none → rate = 16000) ∧
    pcm.length = bytes.length / 2 := by
  subst hpcm hrate hwav
  refine ⟨?_, pcmToWav_length _ _, rfl, rfl, rfl, rfl, rfl, rfl, rfl, rfl, ?_,
    bytesToI16_length bytes⟩
  · simp only [generateNarrationB]
    rw [b64_roundtrip bytes hb, if_pos heven]
  · intro h
    rw [h]
    rfl

set_option maxHeartbeats 200000

/-- Witness for C8: one 16-bit sample at 24000 Hz. -/
theorem C8_witness :
    generateNarrationB (some (InlineData.mk (b64Encode [1, 2])
        (S "audio/L16;codec=pcm;rate=24000"))) =
      Except.ok (S "data:audio/wav;base64," ++
        b64Encode (pcmToWav (bytesToI16 [1, 2])
          ((findRate (S "audio/L16;codec=pcm;rate=24000")).getD 16000) 1)) ∧
    (pcmToWav (bytesToI16 [1, 2])
        ((findRate (S "audio/L16;codec=pcm;rate=24000")).getD 16000) 1).length =
      44 + 2 * (bytesToI16 [1, 2]).length ∧
    (pcmToWav (bytesToI16 [1, 2])
        ((findRate (S "audio/L16;codec=pcm;rate=24000")).getD 16000) 1).take 4 =
      asciiBytes (S "RIFF") ∧
    ((pcmToWav (bytesToI16 [1, 2])
        ((findRate (S "audio/L16;codec=pcm;rate=24000")).getD 16000) 1).drop 8).take 4 =
      asciiBytes (S "WAVE") ∧
    ((pcmToWav (bytesToI16 [1, 2])
        ((findRate (S "audio/L16;codec=pcm;rate=24000")).getD 16000) 1).drop 12).take 4 =
      asciiBytes (S "fmt ") ∧
    ((pcmToWav (bytesToI16 [1, 2])
        ((findRate (S "audio/L16;codec=pcm;rate=24000")).getD 16000) 1).drop 36).take 4 =
      asciiBytes (S "data") ∧
    ((pcmToWav (bytesToI16 [1, 2])
        ((findRate (S "audio/L16;codec=pcm;rate=24000")).getD 16000) 1).drop 22).take 2 =
      u16le 1 ∧
    ((pcmToWav (bytesToI16 [1, 2])
        ((findRate (S "audio/L16;codec=pcm;rate=24000")).getD 16000) 1).drop 34).take 2 =
      u16le 16 ∧
    ((pcmToWav (bytesToI16 [1, 2])
        ((findRate (S "audio/L16;codec=pcm;rate=24000")).getD 16000) 1).drop 24).take 4 =
      u32le ((findRate (S "audio/L16;codec=pcm;rate=24000")).getD 16000) ∧
    ((pcmToWav (bytesToI16 [1, 2])
        ((findRate (S "audio/L16;codec=pcm;rate=24000")).getD 16000) 1).drop 40).take 4 =
      u32le ((bytesToI16 [1, 2]).length * 2) ∧
    (findRate (S "audio/L16;codec=pcm;rate=24000") = none →
      (findRate (S "audio/L16;codec=pcm;rate=24000")).getD 16000 = 16000) ∧
    (bytesToI16 [1, 2]).length = ([1, 2] : List Nat).length / 2 :=
  C8_narration_builds_wav [1, 2] (S "audio/L16;codec=pcm;rate=24000")
    (bytesToI16 [1, 2]) ((findRate (S "audio/L16;codec=pcm;rate=24000")).getD 16000)
    (pcmToWav (bytesToI16 [1, 2])
      ((findRate (S "audio/L16;codec=pcm;rate=24000")).getD 16000) 1)
    (by decide) rfl rfl rfl rfl
